import Mathlib

/-!
SW420 vibration sensor: the debounce gate and the pairing heuristic.

A shallow embedding of `vibration.go`:

* Go strings are lists of Unicode code points (`GoString`); `len` is the length
  in UTF-8 bytes and `[]rune(s)` is the list itself.  Strings that are not valid
  UTF-8 are outside the model.
* A run-time panic (index out of range) is the result `none`.
* A `time.Timer` is its pending expiry instant (`none` when stopped or fired),
  instants and durations are natural numbers of nanoseconds.
* The Go `int` counter `iDebounceCnt` is an `Int` kept in two's-complement range
  of the platform's word size.
* Transitions are serialized: one call of `eventHandler` or one case of the
  main loop at a time.  In the timed runs the main loop takes a timer case only
  while it waits in its `select`, at or after the timer's deadline, and then
  pauses for two seconds; an expiry nobody has read is discarded by the next
  `resetTimer`.
-/

namespace Vibration

/-! ## Go strings -/

/-- A Go string holding valid UTF-8, as its sequence of code points. -/
abbrev GoString := List Char

/-- Go `len(s)`: the number of bytes of the UTF-8 encoding. -/
def byteLen : GoString → Nat
  | [] => 0
  | c :: cs => c.utf8Size + byteLen cs

/-- Go `rs[i]` on a rune slice with an `int` index; `none` is the
index-out-of-range panic. -/
def runeAt (rs : List Char) (i : Int) : Option Char :=
  if i < 0 then none else rs[i.toNat]?

/-- Every code point is below 128. -/
def isASCII (s : GoString) : Prop := ∀ c ∈ s, c.toNat < 128

/-! ## areDevicesPaired (vibration.go, lines 61-74) -/

/-- Source function `areDevicesPaired`.  The two `&&` evaluate their right
operand only when the left one is true, so an index expression on the right is
reached only then. -/
def areDevicesPaired (device1 device2 : GoString) : Option Bool := do
  let dev1Slice : List Char := device1
  let dev2Slice : List Char := device2
  let len1 : Int := byteLen device1
  let len2 : Int := byteLen device2
  -- Same GPIO?
  let a1 ← runeAt dev1Slice (len1 - 1)
  let b1 ← runeAt dev2Slice (len2 - 1)
  let sameGPIO ←
    if a1 = b1 then do
      let a2 ← runeAt dev1Slice (len1 - 2)
      let b2 ← runeAt dev2Slice (len2 - 2)
      pure (decide (a2 = b2))
    else pure false
  -- Make sure we have Rising then Falling
  let r ← runeAt dev1Slice 0
  let riseFall ←
    if r = 'r' then do
      let f ← runeAt dev2Slice 0
      pure (decide (f = 'f'))
    else pure false
  pure ( sameGPIO && riseFall)

/-- The pairing rule in the words of the specification: the last two characters
agree, the first identifier starts with `r` and the second with `f`. -/
def arePairedSpec (a b : GoString) : Bool :=
  decide (a.reverse[0]? = b.reverse[0]?) && decide (a.reverse[1]? = b.reverse[1]?)
    && decide (a[0]? = some 'r') && decide (b[0]? = some 'f')

/-! ## Text formatting (fmt, strconv and time layouts used by the source) -/

/-- Decimal digits of `u`, most significant first, written in front of `acc`
(the digit loop of `strconv`); the first argument bounds the number of digits. -/
def fmtBits : Nat → Nat → List Char → List Char
  | 0, _, acc => acc
  | f + 1, u, acc =>
    if u < 10 then Nat.digitChar u :: acc
    else fmtBits f (u / 10) (Nat.digitChar (u % 10) :: acc)

/-- Decimal text of an unsigned number, no leading zeros. -/
def formatUint (u : Nat) : GoString := fmtBits (u + 1) u []

/-- The verb `%d`, also `strconv.Itoa`. -/
def fmtD (x : Int) : GoString :=
  if x < 0 then '-' :: formatUint x.natAbs else formatUint x.natAbs

/-- A width with right justification, as in `%3d`: blanks in front. -/
def padLeft (w : Nat) (s : GoString) : GoString :=
  List.replicate (w - s.length) ' ' ++ s

/-- A width with the minus flag, as in `%-7s`: blanks behind. -/
def padRight (w : Nat) (s : GoString) : GoString :=
  s ++ List.replicate (w - s.length) ' '

/-- The helper `appendInt` of package time: sign, then the digits padded with
zeros to `width`. -/
def appendInt (x : Int) (width : Nat) : GoString :=
  (if x < 0 then ['-'] else []) ++
    (List.replicate (width - (formatUint x.natAbs).length) '0' ++ formatUint x.natAbs)

/-- The civil fields of a `time.Time` in the local zone. -/
structure Time where
  year : Int
  month : Nat
  day : Nat
  hour : Nat
  minute : Nat
  second : Nat
deriving DecidableEq, Repr

/-- The fields are those of a real clock reading with a four-digit year. -/
def Time.wellFormed (dt : Time) : Prop :=
  0 ≤ dt.year ∧ dt.year ≤ 9999 ∧ 1 ≤ dt.month ∧ dt.month ≤ 12 ∧ 1 ≤ dt.day ∧ dt.day ≤ 31 ∧
    dt.hour ≤ 23 ∧ dt.minute ≤ 59 ∧ dt.second ≤ 59

instance (dt : Time) : Decidable dt.wellFormed := by
  unfold Time.wellFormed; infer_instance

/-- The call `dt.Format("2006-01-02T15:04:05")`. -/
def formatDateTime (dt : Time) : GoString :=
  appendInt dt.year 4 ++ '-' :: appendInt dt.month 2 ++ '-' :: appendInt dt.day 2 ++
    'T' :: appendInt dt.hour 2 ++ ':' :: appendInt dt.minute 2 ++ ':' :: appendInt dt.second 2

/-- A number below 100 as two decimal digits. -/
def twoDigits (n : Nat) : GoString := [Nat.digitChar (n / 10), Nat.digitChar (n % 10)]

/-- A number below 10000 as four decimal digits. -/
def fourDigits (n : Nat) : GoString :=
  [Nat.digitChar (n / 1000), Nat.digitChar (n / 100 % 10), Nat.digitChar (n / 10 % 10),
    Nat.digitChar (n % 10)]

/-! ## Byte slices of a string (used by makeTableDatafiles) -/

/-- The string from byte offset `n` on, `s[n:]`.  `none`: the offset is past the
end (a panic) or inside a multi-byte code point (a result outside the model). -/
def dropBytes : Nat → GoString → Option GoString
  | 0, s => some s
  | _ + 1, [] => none
  | n + 1, c :: cs =>
    if c.utf8Size ≤ n + 1 then dropBytes (n + 1 - c.utf8Size) cs else none

/-- The first `n` bytes, `s[:n]`, with `none` as for `dropBytes`. -/
def takeBytes : Nat → GoString → Option GoString
  | 0, _ => some []
  | _ + 1, [] => none
  | n + 1, c :: cs =>
    if c.utf8Size ≤ n + 1 then (takeBytes (n + 1 - c.utf8Size) cs).map (c :: ·) else none

/-- Go `s[lo:hi]`. -/
def sliceBytes (s : GoString) (lo hi : Nat) : Option GoString :=
  if hi < lo then none else (dropBytes lo s).bind (takeBytes (hi - lo))

/-- The table row `makeTableDatafiles` writes for one line `text` of the event
file (vibration.go, lines 136-140); `none` is a slice out of range. -/
def tableRow (text : GoString) : Option GoString := do
  let c1 ← sliceBytes text 0 19
  let c2 ← sliceBytes text 20 30
  if byteLen text < 31 then
    pure ("    <tr><td>".toList ++ c1 ++ "</td><td>".toList ++ c2 ++
      "</td><td> ? </td></tr>\n".toList)
  else do
    let c3 ← dropBytes 31 text
    pure ("    <tr><td>".toList ++ c1 ++ "</td><td>".toList ++ c2 ++ "</td><td>".toList ++ c3 ++
      "</td>".toList)

/-! ## The debounce gate (vibration.go, lines 46-59, 149-196, 269-292) -/

/-- Width of the Go type `int`: 32 bits on the documented build target
(`GOARCH=arm`), 64 bits on 64-bit platforms. -/
inductive IntSize where
  | bits32
  | bits64
deriving DecidableEq, Repr

/-- Number of bits. -/
def IntSize.bits : IntSize → Nat
  | .bits32 => 32
  | .bits64 => 64

/-- Largest value of `int`. -/
def IntSize.maxInt (sz : IntSize) : Int := 2 ^ (sz.bits - 1) - 1

/-- Smallest value of `int`. -/
def IntSize.minInt (sz : IntSize) : Int := -(2 ^ (sz.bits - 1))

/-- Two's-complement wrap-around of a result of `int` arithmetic. -/
def wrapInt (sz : IntSize) (x : Int) : Int :=
  (x + 2 ^ (sz.bits - 1)) % 2 ^ sz.bits - 2 ^ (sz.bits - 1)

/-- The configuration values, in nanoseconds, and the platform's `int`. -/
structure Config where
  superDebounce : Nat
  pauseDur : Nat
  intSize : IntSize
deriving DecidableEq, Repr

/-- The values in the source: `superDebounce = 2*time.Second`,
`pauseDur = 30*time.Second`, built for 32-bit ARM. -/
def sourceConfig : Config :=
  { superDebounce := 2000000000, pauseDur := 30000000000, intSize := .bits32 }

/-- The value of `gpiocdev.LineEventRisingEdge`. -/
def LineEventRisingEdge : Nat := 1

/-- The value of `gpiocdev.LineEventFallingEdge`. -/
def LineEventFallingEdge : Nat := 2

/-- The fields of `gpiocdev.LineEvent`. -/
structure LineEvent where
  Offset : Int
  Timestamp : Int
  Type_ : Nat
  Seqno : Nat
  LineSeqno : Nat
deriving DecidableEq, Repr

/-- One call of `eventHandler`: the event and what the call reads from its
environment. -/
structure Arrival where
  /-- The event delivered. -/
  evt : LineEvent
  /-- Instant of the call on the monotonic clock the timers run on. -/
  now : Nat
  /-- The value of `time.Now()`. -/
  dt : Time
  /-- Text of `dt.Format(time.RFC3339Nano)` (standard library). -/
  rfc3339Nano : GoString
  /-- Text of `evt.Timestamp` under `%s` (`time.Duration.String`, standard library). -/
  stampText : GoString
  /-- `DailyFile.WriteString` returns an error. -/
  writeFails : Bool
deriving DecidableEq, Repr

/-- The global variables of the gate and what the gate has emitted. -/
structure Gate where
  inDeBounce : Bool
  iDebounceCnt : Int
  /-- Pending expiry instant of `timerDelay`; `none` when stopped or fired. -/
  timerDelay : Option Nat
  /-- Pending expiry instant of `timerDeBounce`; `none` when stopped or fired. -/
  timerDeBounce : Option Nat
  /-- Arguments of the `DailyFile.WriteString` calls, oldest first. -/
  writes : List GoString
  /-- Lines given to `log.Error`, oldest first. -/
  logged : List GoString
  /-- Number of `makeTableDatafiles` calls made by the main loop. -/
  tables : Nat
deriving DecidableEq, Repr

/-- The state when the main loop starts: both timers created and stopped. -/
def Gate.init : Gate :=
  { inDeBounce := false, iDebounceCnt := 0, timerDelay := none, timerDeBounce := none,
    writes := [], logged := [], tables := 0 }

/-- Source function `resetTimer`: stop, drain, `Reset(d)`; whatever the timer
was doing, it is now pending with expiry `d` from now. -/
def resetTimer (_t : Option Nat) (now d : Nat) : Option Nat := some (now + d)

/-- The direction as `eventHandler` names it: `"rising"` unless the event type
is `LineEventFallingEdge`. -/
def edgeName (a : Arrival) : GoString :=
  if a.evt.Type_ = LineEventFallingEdge then "falling".toList else "rising".toList

/-- The text `temp` built by the first `Sprintf` of `eventHandler`, format
`"%-7s%3d event: #%d(%d) %s (%s)"`. -/
def eventText (a : Arrival) : GoString :=
  padRight 7 (edgeName a) ++ padLeft 3 (fmtD a.evt.Offset) ++ " event: #".toList ++
    fmtD a.evt.Seqno ++ "(".toList ++ fmtD a.evt.LineSeqno ++ ") ".toList ++
    a.rfc3339Nano ++ " (".toList ++ a.stampText ++ ")".toList

/-- The direction and line field of a logged line: `%-7s%3d`. -/
def eventField (a : Arrival) : GoString :=
  padRight 7 (edgeName a) ++ padLeft 3 (fmtD a.evt.Offset)

/-- The text from column 31 of a logged line. -/
def eventDescription (a : Arrival) : GoString :=
  "event: #".toList ++ fmtD a.evt.Seqno ++ "(".toList ++ fmtD a.evt.LineSeqno ++ ") ".toList ++
    a.rfc3339Nano ++ " (".toList ++ a.stampText ++ ")".toList

/-- The line without its newline: timestamp, blank, `temp`. -/
def eventLine (a : Arrival) : GoString :=
  formatDateTime a.dt ++ ' ' :: eventText a

/-- The text `messg` given to `DailyFile.WriteString`. -/
def eventMessage (a : Arrival) : GoString := eventLine a ++ ['\n']

/-- Source function `eventHandler`.  The whole call happens at the instant
`a.now`; the reset of `timerDeBounce` inside the else branch (line 171) is
followed by the unconditional resets of both timers (lines 194-195). -/
def eventHandler (cfg : Config) (a : Arrival) (g : Gate) : Gate :=
  let g1 : Gate :=
    if g.inDeBounce then
      { g with iDebounceCnt := wrapInt cfg.intSize (g.iDebounceCnt + 1) }
    else
      let temp := eventText a
      { g with
        inDeBounce := true
        timerDeBounce := resetTimer g.timerDeBounce a.now cfg.superDebounce
        writes := g.writes ++ [eventMessage a]
        logged := g.logged ++
          [if a.writeFails then "vibration.eventHandler - Error in WriteStrig - ".toList ++ temp
           else "vibration.eventHandler >> ".toList ++ temp] }
  { g1 with
    timerDelay := resetTimer g1.timerDelay a.now cfg.pauseDur
    timerDeBounce := resetTimer g1.timerDeBounce a.now cfg.superDebounce }

/-- The main loop's case `<-timerDelay.C`. -/
def onTimerDelay (g : Gate) : Gate :=
  { g with timerDelay := none, tables := g.tables + 1 }

/-- The main loop's case `<-timerDeBounce.C`. -/
def onTimerDeBounce (g : Gate) : Gate :=
  { g with
    timerDeBounce := none
    logged := g.logged ++
      ["vibration.main 7 - timerDeBounce exit, count=".toList ++ fmtD g.iDebounceCnt]
    inDeBounce := false
    iDebounceCnt := 0 }

/-! ### Untimed runs: any interleaving of the three transitions -/

/-- One transition of the gate. -/
inductive Action where
  | edge (a : Arrival)
  | timerDelayFires
  | timerDeBounceFires
deriving DecidableEq, Repr

/-- A timer case of the loop runs only when that timer is pending. -/
def step (cfg : Config) (g : Gate) : Action → Gate
  | .edge a => eventHandler cfg a g
  | .timerDelayFires => if g.timerDelay.isSome then onTimerDelay g else g
  | .timerDeBounceFires => if g.timerDeBounce.isSome then onTimerDeBounce g else g

/-- A finite sequence of transitions. -/
def run (cfg : Config) (g : Gate) (acts : List Action) : Gate :=
  acts.foldl (step cfg) g

/-- Edges only, no expiry handled in between. -/
def handleAll (cfg : Config) (g : Gate) (as : List Arrival) : Gate :=
  as.foldl (fun st a => eventHandler cfg a st) g

/-! ### Predicates on gate states -/

/-- The count is zero whenever the gate is Idle. -/
def idleZero (g : Gate) : Prop := g.inDeBounce = false → g.iDebounceCnt = 0

/-- The stored count is a value of the type `int`. -/
def countInRange (cfg : Config) (g : Gate) : Prop :=
  cfg.intSize.minInt ≤ g.iDebounceCnt ∧ g.iDebounceCnt ≤ cfg.intSize.maxInt

instance (cfg : Config) (g : Gate) : Decidable (countInRange cfg g) := by
  unfold countInRange; infer_instance

/-! ### Timed runs: the handler, the two cases of the main loop and its pause

A timer holds its expiry from the deadline on, until the main loop reads it or
the next `resetTimer` discards it: `some d` with `d` not after the present
instant is an expiry waiting in the timer's channel. -/

/-- The pause `time.Sleep(2*time.Second)` that ends every turn of the main loop
(line 291). -/
def loopPause : Nat := 2000000000

/-- The gate and the place of the main loop in time. -/
structure Timed where
  gate : Gate
  /-- Instant from which the main loop waits in its `select`; before it the loop
  is inside a case or in its pause. -/
  loopFree : Nat
  /-- Instant of the latest event. -/
  clock : Nat
deriving DecidableEq, Repr

/-- The main loop enters its first `select` with the initial gate. -/
def Timed.init : Timed := { gate := Gate.init, loopFree := 0, clock := 0 }

/-- What happens at an instant of a timed run. -/
inductive Event where
  /-- A call of `eventHandler` at the instant `a.now`. -/
  | edge (a : Arrival)
  /-- The main loop takes its case `<-timerDeBounce.C` at instant `h`. -/
  | deBounceCase (h : Nat)
  /-- The main loop takes its case `<-timerDelay.C` at instant `h`, and
  `makeTableDatafiles` runs for `tableTime`. -/
  | delayCase (h tableTime : Nat)
deriving DecidableEq, Repr

/-- The event is a call of `eventHandler`. -/
def Event.isEdge : Event → Bool
  | .edge _ => true
  | .deBounceCase _ => false
  | .delayCase _ _ => false

/-- The instant of the event. -/
def Event.time : Event → Nat
  | .edge a => a.now
  | .deBounceCase h => h
  | .delayCase h _ => h

/-- One event of a timed run; `none` when the code cannot do this at that
instant.  Time does not go backwards.  The loop takes a timer case only when it
waits in its `select` and the expiry of that timer is waiting; after the case
it pauses for `loopPause`. -/
def timedStep (cfg : Config) (s : Timed) : Event → Option Timed
  | .edge a =>
    if s.clock ≤ a.now then
      some { gate := eventHandler cfg a s.gate, loopFree := s.loopFree, clock := a.now }
    else none
  | .deBounceCase h =>
    match s.gate.timerDeBounce with
    | some d =>
      if s.clock ≤ h ∧ s.loopFree ≤ h ∧ d ≤ h then
        some { gate := onTimerDeBounce s.gate, loopFree := h + loopPause, clock := h }
      else none
    | none => none
  | .delayCase h tableTime =>
    match s.gate.timerDelay with
    | some d =>
      if s.clock ≤ h ∧ s.loopFree ≤ h ∧ d ≤ h then
        some { gate := onTimerDelay s.gate, loopFree := h + tableTime + loopPause, clock := h }
      else none
    | none => none

/-- A timed run: the events in order. -/
def runTrace (cfg : Config) : Timed → List Event → Option Timed
  | s, [] => some s
  | s, e :: es => (timedStep cfg s e).bind (fun s1 => runTrace cfg s1 es)

/-- After an edge at `t0`: as long as the window `t0 + superDebounce` has not
been reached, the gate is in debounce and the window timer is due no earlier
than the end of the window. -/
def inWindow (cfg : Config) (t0 : Nat) (s : Timed) : Prop :=
  t0 ≤ s.clock ∧
    (s.clock < t0 + cfg.superDebounce →
      s.gate.inDeBounce = true ∧
        ∃ d, s.gate.timerDeBounce = some d ∧ t0 + cfg.superDebounce ≤ d)

/-- The source configuration with a window of 1 s. -/
def oneSecondWindow : Config := { sourceConfig with superDebounce := 1000000000 }

/-! ### Sample inputs for the concrete scenarios -/

/-- A clock reading used in the scenarios. -/
def sampleTime : Time :=
  { year := 2025, month := 3, day := 9, hour := 7, minute := 5, second := 1 }

/-- An edge on line 17 delivered at instant `t` (nanoseconds), of type `ty`,
with sequence number `seq`.  The kernel timestamp of the sample is 1h2m3.5s,
the value its text stands for. -/
def edgeAt (t ty seq : Nat) : Arrival :=
  { evt := { Offset := 17, Timestamp := 3723500000000, Type_ := ty, Seqno := seq,
             LineSeqno := seq }
    now := t
    dt := sampleTime
    rfc3339Nano := "2025-03-09T07:05:01.25-05:00".toList
    stampText := "1h2m3.5s".toList
    writeFails := false }

/-! ## Lemmas on strings -/

theorem utf8Size_of_lt (c : Char) (h : c.toNat < 128) : c.utf8Size = 1 := by
  have h1 : c.val ≤ 127 := by
    rw [UInt32.le_def]
    have h2 : c.val.toNat < 128 := h
    have h3 : c.val.val.val ≤ 127 := by
      have : c.val.toNat = c.val.val.val := rfl
      omega
    exact h3
  simp [Char.utf8Size, h1]
theorem byteLen_ascii (s : GoString) (h : isASCII s) : byteLen s = s.length := by
  induction s with
  | nil => rfl
  | cons c cs ih =>
    have hc := utf8Size_of_lt c (h c (List.mem_cons_self _ _))
    have := ih (fun x hx => h x (List.mem_cons_of_mem _ hx))
    simp [byteLen, hc, this]; omega

theorem runeAt_ofNat (rs : List Char) (n k : Nat) (h : k ≤ n) :
    runeAt rs ((n : Int) - (k : Int)) = rs[n - k]? := by
  unfold runeAt
  have h1 : ¬ ((n : Int) - (k : Int) < 0) := by omega
  have h2 : ((n : Int) - (k : Int)).toNat = n - k := by omega
  simp [h1, h2]

theorem runeAt_zero (rs : List Char) : runeAt rs 0 = rs[0]? := by
  simp [runeAt]

theorem areDevicesPaired_eq_spec (a b : GoString) (ha : isASCII a) (hb : isASCII b)
    (la : 2 ≤ a.length) (lb : 2 ≤ b.length) :
    areDevicesPaired a b = some (arePairedSpec a b) := by
  have e1 := runeAt_ofNat a a.length 1 (by omega)
  have e2 := runeAt_ofNat a a.length 2 (by omega)
  have e3 := runeAt_ofNat b b.length 1 (by omega)
  have e4 := runeAt_ofNat b b.length 2 (by omega)
  have r0 : a.reverse[0]? = a[a.length - 1]? := by
    rw [List.getElem?_reverse (by omega)]; rfl
  have r1 : a.reverse[1]? = a[a.length - 2]? := by
    rw [List.getElem?_reverse (by omega)]; rfl
  have s0 : b.reverse[0]? = b[b.length - 1]? := by
    rw [List.getElem?_reverse (by omega)]; rfl
  have s1 : b.reverse[1]? = b[b.length - 2]? := by
    rw [List.getElem?_reverse (by omega)]; rfl
  have g1 : a[a.length - 1]? = some (a[a.length - 1]) := List.getElem?_eq_getElem (by omega)
  have g2 : a[a.length - 2]? = some (a[a.length - 2]) := List.getElem?_eq_getElem (by omega)
  have g3 : b[b.length - 1]? = some (b[b.length - 1]) := List.getElem?_eq_getElem (by omega)
  have g4 : b[b.length - 2]? = some (b[b.length - 2]) := List.getElem?_eq_getElem (by omega)
  have g5 : a[0]? = some (a[0]) := List.getElem?_eq_getElem (by omega)
  have g6 : b[0]? = some (b[0]) := List.getElem?_eq_getElem (by omega)
  unfold areDevicesPaired arePairedSpec
  rw [byteLen_ascii a ha, byteLen_ascii b hb]
  simp only [Nat.cast_ofNat] at e1 e2 e3 e4
  have e1' : runeAt a ((a.length : Int) - 1) = some (a[a.length - 1]) := by
    rw [← g1, ← e1]; rfl
  have e2' : runeAt a ((a.length : Int) - 2) = some (a[a.length - 2]) := by
    rw [← g2, ← e2]
  have e3' : runeAt b ((b.length : Int) - 1) = some (b[b.length - 1]) := by
    rw [← g3, ← e3]; rfl
  have e4' : runeAt b ((b.length : Int) - 2) = some (b[b.length - 2]) := by
    rw [← g4, ← e4]
  rw [r0, r1, s0, s1, g1, g2, g3, g4, g5, g6]
  simp only [e1', e2', e3', e4', runeAt_zero, g5, g6, Option.bind_eq_bind, Option.some_bind,
    Option.pure_def, Option.some.injEq]
  by_cases c1 : a[a.length - 1] = b[b.length - 1] <;>
  by_cases c2 : a[a.length - 2] = b[b.length - 2] <;>
  by_cases c3 : a[0] = 'r' <;>
  by_cases c4 : b[0] = 'f' <;>
  simp [c1, c2, c3, c4]


/-! ## Lemmas on the gate -/

theorem eventHandler_inDeBounce (cfg : Config) (a : Arrival) (g : Gate) :
    (eventHandler cfg a g).inDeBounce = true := by
  unfold eventHandler; split <;> simp_all

theorem eventHandler_timerDeBounce (cfg : Config) (a : Arrival) (g : Gate) :
    (eventHandler cfg a g).timerDeBounce = some (a.now + cfg.superDebounce) := by
  simp [eventHandler, resetTimer]

theorem eventHandler_timerDelay (cfg : Config) (a : Arrival) (g : Gate) :
    (eventHandler cfg a g).timerDelay = some (a.now + cfg.pauseDur) := by
  simp [eventHandler, resetTimer]

theorem eventHandler_suppressed (cfg : Config) (a : Arrival) (g : Gate)
    (h : g.inDeBounce = true) :
    (eventHandler cfg a g).writes = g.writes ∧
      (eventHandler cfg a g).logged = g.logged ∧
      (eventHandler cfg a g).iDebounceCnt = wrapInt cfg.intSize (g.iDebounceCnt + 1) := by
  simp [eventHandler, h]

theorem eventHandler_admitted (cfg : Config) (a : Arrival) (g : Gate)
    (h : g.inDeBounce = false) :
    (eventHandler cfg a g).writes = g.writes ++ [eventMessage a] ∧
      (eventHandler cfg a g).iDebounceCnt = g.iDebounceCnt := by
  simp [eventHandler, h]

theorem two_pow_bits_pos (sz : IntSize) : (0 : Int) < 2 ^ sz.bits := by positivity

theorem two_pow_bits_split (sz : IntSize) :
    (2 : Int) ^ sz.bits = 2 ^ (sz.bits - 1) + 2 ^ (sz.bits - 1) := by
  cases sz <;> simp [IntSize.bits]

theorem wrapInt_add (sz : IntSize) (x k : Int) :
    wrapInt sz (wrapInt sz x + k) = wrapInt sz (x + k) := by
  unfold wrapInt
  have e : (x + 2 ^ (sz.bits - 1)) % 2 ^ sz.bits - 2 ^ (sz.bits - 1) + k + 2 ^ (sz.bits - 1)
      = (x + 2 ^ (sz.bits - 1)) % 2 ^ sz.bits + k := by ring
  have e2 : x + k + 2 ^ (sz.bits - 1) = (x + 2 ^ (sz.bits - 1)) + k := by ring
  rw [e, e2, Int.emod_add_emod]

theorem wrapInt_idem (sz : IntSize) (x : Int) : wrapInt sz (wrapInt sz x) = wrapInt sz x := by
  have := wrapInt_add sz x 0
  simpa using this

theorem wrapInt_of_range (sz : IntSize) (x : Int) (lo : sz.minInt ≤ x) (hi : x ≤ sz.maxInt) :
    wrapInt sz x = x := by
  unfold wrapInt
  unfold IntSize.minInt at lo
  unfold IntSize.maxInt at hi
  have s := two_pow_bits_split sz
  rw [Int.emod_eq_of_lt (by omega) (by omega)]
  omega



theorem handleAll_suppressed (cfg : Config) (as : List Arrival) :
    ∀ g : Gate, g.inDeBounce = true → wrapInt cfg.intSize g.iDebounceCnt = g.iDebounceCnt →
      (handleAll cfg g as).inDeBounce = true ∧
      (handleAll cfg g as).writes = g.writes ∧
      (handleAll cfg g as).iDebounceCnt = wrapInt cfg.intSize (g.iDebounceCnt + as.length) := by
  induction as with
  | nil => intro g h hr; simp [handleAll, h, hr]
  | cons a as ih =>
    intro g h hr
    have hs := eventHandler_suppressed cfg a g h
    have hi := eventHandler_inDeBounce cfg a g
    have hr2 : wrapInt cfg.intSize (eventHandler cfg a g).iDebounceCnt
        = (eventHandler cfg a g).iDebounceCnt := by
      rw [hs.2.2, wrapInt_idem]
    have h3 := ih (eventHandler cfg a g) hi hr2
    have e : handleAll cfg g (a :: as) = handleAll cfg (eventHandler cfg a g) as := rfl
    rw [e]
    refine ⟨h3.1, h3.2.1.trans hs.1, ?_⟩
    rw [h3.2.2, hs.2.2, wrapInt_add]
    congr 1
    rw [List.length_cons]
    push_cast
    ring

theorem handleAll_init (cfg : Config) (a : Arrival) (as : List Arrival) :
    (handleAll cfg Gate.init (a :: as)).writes = [eventMessage a] ∧
      (handleAll cfg Gate.init (a :: as)).iDebounceCnt = wrapInt cfg.intSize as.length ∧
      (handleAll cfg Gate.init (a :: as)).inDeBounce = true := by
  have e : handleAll cfg Gate.init (a :: as)
      = handleAll cfg (eventHandler cfg a Gate.init) as := rfl
  have ha := eventHandler_admitted cfg a Gate.init rfl
  have hi := eventHandler_inDeBounce cfg a Gate.init
  have h0 : (eventHandler cfg a Gate.init).iDebounceCnt = 0 := ha.2
  have hr : wrapInt cfg.intSize (eventHandler cfg a Gate.init).iDebounceCnt
      = (eventHandler cfg a Gate.init).iDebounceCnt := by
    rw [h0]; cases cfg.intSize <;> decide
  have h3 := handleAll_suppressed cfg as _ hi hr
  rw [e]
  refine ⟨h3.2.1.trans ?_, ?_, h3.1⟩
  · rw [ha.1]; rfl
  · rw [h3.2.2, h0]; simp

/-- C3 (amended for the width of `int`).  Starting from Idle and processing
`M = as.length + 1` edges with no expiry handled in between, exactly one line is
written, the line of the first edge, and `iDebounceCnt` is `M - 1` reduced to
the two's-complement range of `int`; it equals `M - 1` as long as `M - 1` does
not exceed the largest `int`. -/
theorem one_line_and_count_within_window (cfg : Config) (a : Arrival) (as : List Arrival) :
    (handleAll cfg Gate.init (a :: as)).writes = [eventMessage a] ∧
      (handleAll cfg Gate.init (a :: as)).iDebounceCnt = wrapInt cfg.intSize as.length ∧
      ((as.length : Int) ≤ cfg.intSize.maxInt →
        (handleAll cfg Gate.init (a :: as)).iDebounceCnt = as.length) := by
  have h := handleAll_init cfg a as
  refine ⟨h.1, h.2.1, fun hle => ?_⟩
  rw [h.2.1]
  apply wrapInt_of_range _ _ _ hle
  have : cfg.intSize.minInt ≤ 0 := by cases cfg.intSize <;> decide
  omega

/-- Witness of C3: five edges give one logged line and a count of 4. -/
theorem one_line_and_count_within_window_witness :
    (handleAll sourceConfig Gate.init
        [edgeAt 0 1 1, edgeAt 100 2 2, edgeAt 200 1 3, edgeAt 300 2 4, edgeAt 400 1 5]).writes
      = [eventMessage (edgeAt 0 1 1)] ∧
    (handleAll sourceConfig Gate.init
        [edgeAt 0 1 1, edgeAt 100 2 2, edgeAt 200 1 3, edgeAt 300 2 4, edgeAt 400 1 5]).iDebounceCnt
      = 4 :=
  ⟨(one_line_and_count_within_window sourceConfig (edgeAt 0 1 1)
      [edgeAt 100 2 2, edgeAt 200 1 3, edgeAt 300 2 4, edgeAt 400 1 5]).1,
   (one_line_and_count_within_window sourceConfig (edgeAt 0 1 1)
      [edgeAt 100 2 2, edgeAt 200 1 3, edgeAt 300 2 4, edgeAt 400 1 5]).2.2 (by decide)⟩

/-- Counterexample to C3 as stated: on the 32-bit build, `M = 2^31 + 1` edges
inside one window leave `iDebounceCnt` at `-2^31`, not at `M - 1 = 2^31`. -/
theorem count_wraps_at_two_pow_31 :
    (handleAll sourceConfig Gate.init
        (edgeAt 0 1 1 :: List.replicate 2147483648 (edgeAt 1 2 2))).iDebounceCnt = -2147483648 ∧
    (handleAll sourceConfig Gate.init
        (edgeAt 0 1 1 :: List.replicate 2147483648 (edgeAt 1 2 2))).iDebounceCnt ≠
      ((edgeAt 0 1 1 :: List.replicate 2147483648 (edgeAt 1 2 2)).length : Int) - 1 := by
  have h := (handleAll_init sourceConfig (edgeAt 0 1 1)
    (List.replicate 2147483648 (edgeAt 1 2 2))).2.1
  rw [List.length_replicate] at h
  have hv : wrapInt sourceConfig.intSize ((2147483648 : Nat) : Int) = -2147483648 := by decide
  rw [hv] at h
  constructor
  · exact h
  · rw [h, List.length_cons, List.length_replicate]
    decide


/-! ## Invariant of the gate (C7) -/

theorem idleZero_step (cfg : Config) (g : Gate) (act : Action) (h : idleZero g) :
    idleZero (step cfg g act) := by
  cases act with
  | edge a =>
    intro hf
    have := eventHandler_inDeBounce cfg a g
    simp [step, this] at hf
  | timerDelayFires =>
    simp only [step]
    split
    · exact h
    · exact h
  | timerDeBounceFires =>
    simp only [step]
    split
    · intro _; rfl
    · exact h

theorem idleZero_run (cfg : Config) (acts : List Action) :
    ∀ g : Gate, idleZero g → idleZero (run cfg g acts) := by
  induction acts with
  | nil => intro g h; exact h
  | cons act acts ih => intro g h; exact ih _ (idleZero_step cfg g act h)

/-- C7.  In every state reachable from the initial state by edges and expiries
of the two timers, a positive `iDebounceCnt` implies `inDeBounce`, the count is
zero whenever the gate is Idle, and a transition that raises the count starts
with `inDeBounce` true. -/
theorem count_positive_only_in_debounce (cfg : Config) (acts : List Action) :
    (0 < (run cfg Gate.init acts).iDebounceCnt → (run cfg Gate.init acts).inDeBounce = true) ∧
    ((run cfg Gate.init acts).inDeBounce = false → (run cfg Gate.init acts).iDebounceCnt = 0) ∧
    (∀ act : Action,
      (run cfg Gate.init acts).iDebounceCnt < (step cfg (run cfg Gate.init acts) act).iDebounceCnt →
        (run cfg Gate.init acts).inDeBounce = true) := by
  have inv : idleZero (run cfg Gate.init acts) := idleZero_run cfg acts Gate.init (fun _ => rfl)
  refine ⟨fun hpos => ?_, inv, fun act hlt => ?_⟩
  · cases hb : (run cfg Gate.init acts).inDeBounce with
    | true => rfl
    | false => have := inv hb; omega
  · cases hb : (run cfg Gate.init acts).inDeBounce with
    | true => rfl
    | false =>
      exfalso
      have h0 := inv hb
      have h1 := idleZero_step cfg _ act inv
      cases act with
      | edge a =>
        have := (eventHandler_admitted cfg a _ hb).2
        simp only [step] at hlt
        omega
      | timerDelayFires =>
        simp only [step] at hlt
        split at hlt <;> simp [onTimerDelay] at hlt
      | timerDeBounceFires =>
        simp only [step] at hlt
        split at hlt
        · simp [onTimerDeBounce] at hlt; omega
        · omega

/-- Witness of C7: after two edges the count is 1 and the gate is in debounce. -/
theorem count_positive_only_in_debounce_witness :
    0 < (run sourceConfig Gate.init
        [Action.edge (edgeAt 0 1 1), Action.edge (edgeAt 100 2 2)]).iDebounceCnt ∧
    (run sourceConfig Gate.init
        [Action.edge (edgeAt 0 1 1), Action.edge (edgeAt 100 2 2)]).inDeBounce = true :=
  ⟨by decide,
   (count_positive_only_in_debounce sourceConfig
      [Action.edge (edgeAt 0 1 1), Action.edge (edgeAt 100 2 2)]).1 (by decide)⟩

/-! ## Frame of the transitions (C8, C9, C2) -/

theorem wrapInt_succ_lt (sz : IntSize) (x : Int) (lo : sz.minInt ≤ x) (hi : x ≤ sz.maxInt)
    (h : wrapInt sz (x + 1) < x) : x = sz.maxInt ∧ wrapInt sz (x + 1) = sz.minInt := by
  by_cases hx : x = sz.maxInt
  · refine ⟨hx, ?_⟩
    subst hx
    cases sz <;> decide
  · exfalso
    have hi2 : x + 1 ≤ sz.maxInt := by omega
    have := wrapInt_of_range sz (x + 1) (by omega) hi2
    omega

/-- C8 (amended for the width of `int`).  The `timerDelay` case of the main
loop leaves `inDeBounce` and `iDebounceCnt` unchanged.  Of the three
transitions only the `timerDeBounce` expiry changes `inDeBounce` from true to
false, and it is the only one that lowers `iDebounceCnt`, apart from an edge
arriving in debounce with the count at the largest `int`, which wraps it to the
smallest. -/
theorem report_trigger_independence (cfg : Config) (g : Gate) (hr : countInRange cfg g) :
    (onTimerDelay g).inDeBounce = g.inDeBounce ∧
    (onTimerDelay g).iDebounceCnt = g.iDebounceCnt ∧
    (∀ act : Action, g.inDeBounce = true → (step cfg g act).inDeBounce = false →
      act = Action.timerDeBounceFires) ∧
    (∀ act : Action, (step cfg g act).iDebounceCnt < g.iDebounceCnt →
      act = Action.timerDeBounceFires ∨
      (∃ a, act = Action.edge a ∧ g.inDeBounce = true ∧ g.iDebounceCnt = cfg.intSize.maxInt ∧
        (step cfg g act).iDebounceCnt = cfg.intSize.minInt)) := by
  refine ⟨rfl, rfl, fun act ht hf => ?_, fun act hlt => ?_⟩
  · cases act with
    | edge a =>
      have := eventHandler_inDeBounce cfg a g
      simp [step, this] at hf
    | timerDelayFires =>
      simp only [step] at hf
      split at hf <;> simp [onTimerDelay, ht] at hf
    | timerDeBounceFires => rfl
  · cases act with
    | edge a =>
      right
      simp only [step] at hlt ⊢
      cases hb : g.inDeBounce with
      | false =>
        have := (eventHandler_admitted cfg a g hb).2
        omega
      | true =>
        have hs := (eventHandler_suppressed cfg a g hb).2.2
        rw [hs] at hlt
        have := wrapInt_succ_lt cfg.intSize g.iDebounceCnt hr.1 hr.2 hlt
        exact ⟨a, rfl, rfl, this.1, hs.trans this.2⟩
    | timerDelayFires =>
      simp only [step] at hlt
      split at hlt <;> simp [onTimerDelay] at hlt
    | timerDeBounceFires => left; rfl

/-- Witness of C8: the state after two edges, then the `timerDeBounce` expiry
lowering the count. -/
theorem report_trigger_independence_witness :
    countInRange sourceConfig (handleAll sourceConfig Gate.init [edgeAt 0 1 1, edgeAt 100 2 2]) ∧
    (onTimerDelay (handleAll sourceConfig Gate.init [edgeAt 0 1 1, edgeAt 100 2 2])).iDebounceCnt
      = (handleAll sourceConfig Gate.init [edgeAt 0 1 1, edgeAt 100 2 2]).iDebounceCnt :=
  ⟨by decide,
   (report_trigger_independence sourceConfig
      (handleAll sourceConfig Gate.init [edgeAt 0 1 1, edgeAt 100 2 2]) (by decide)).2.1⟩

/-- Counterexample to C8 as stated: on the 32-bit build the state reached
from Idle by `2^31` edges with no expiry in between has `inDeBounce` true and
the count at `2^31 - 1`; one more edge lowers `iDebounceCnt` to `-2^31`. -/
theorem edge_lowers_count_at_maxInt :
    (handleAll sourceConfig Gate.init
        (edgeAt 0 1 1 :: List.replicate 2147483647 (edgeAt 1 2 2))).inDeBounce = true ∧
    (handleAll sourceConfig Gate.init
        (edgeAt 0 1 1 :: List.replicate 2147483647 (edgeAt 1 2 2))).iDebounceCnt = 2147483647 ∧
    (step sourceConfig
        (handleAll sourceConfig Gate.init (edgeAt 0 1 1 :: List.replicate 2147483647 (edgeAt 1 2 2)))
        (Action.edge (edgeAt 5 2 9))).iDebounceCnt = -2147483648 ∧
    (step sourceConfig
        (handleAll sourceConfig Gate.init (edgeAt 0 1 1 :: List.replicate 2147483647 (edgeAt 1 2 2)))
        (Action.edge (edgeAt 5 2 9))).iDebounceCnt <
      (handleAll sourceConfig Gate.init
        (edgeAt 0 1 1 :: List.replicate 2147483647 (edgeAt 1 2 2))).iDebounceCnt := by
  have hc := (handleAll_init sourceConfig (edgeAt 0 1 1)
    (List.replicate 2147483647 (edgeAt 1 2 2))).2.1
  rw [List.length_replicate] at hc
  have hv : wrapInt sourceConfig.intSize ((2147483647 : Nat) : Int) = 2147483647 := by decide
  rw [hv] at hc
  have hi := (handleAll_init sourceConfig (edgeAt 0 1 1)
    (List.replicate 2147483647 (edgeAt 1 2 2))).2.2
  have hs := (eventHandler_suppressed sourceConfig (edgeAt 5 2 9) _ hi).2.2
  rw [hc] at hs
  have hw : wrapInt sourceConfig.intSize (2147483647 + 1) = -2147483648 := by decide
  rw [hw] at hs
  have hstep : ∀ g : Gate, step sourceConfig g (Action.edge (edgeAt 5 2 9))
      = eventHandler sourceConfig (edgeAt 5 2 9) g := fun _ => rfl
  rw [hstep, hs, hc]
  exact ⟨hi, rfl, rfl, by decide⟩

/-- C9.  The gate after `eventHandler` is the same whether
`DailyFile.WriteString` succeeds or returns an error: `inDeBounce`,
`iDebounceCnt`, both timers and the write calls issued agree; on an admitted
edge `inDeBounce` becomes true in both cases and exactly one write call is
issued. -/
theorem write_failure_does_not_affect_gate (cfg : Config) (a : Arrival) (g : Gate) :
    (eventHandler cfg { a with writeFails := true } g).inDeBounce
      = (eventHandler cfg { a with writeFails := false } g).inDeBounce ∧
    (eventHandler cfg { a with writeFails := true } g).iDebounceCnt
      = (eventHandler cfg { a with writeFails := false } g).iDebounceCnt ∧
    (eventHandler cfg { a with writeFails := true } g).timerDelay
      = (eventHandler cfg { a with writeFails := false } g).timerDelay ∧
    (eventHandler cfg { a with writeFails := true } g).timerDeBounce
      = (eventHandler cfg { a with writeFails := false } g).timerDeBounce ∧
    (eventHandler cfg { a with writeFails := true } g).writes
      = (eventHandler cfg { a with writeFails := false } g).writes ∧
    (g.inDeBounce = false →
      (eventHandler cfg { a with writeFails := true } g).inDeBounce = true ∧
      (eventHandler cfg { a with writeFails := false } g).inDeBounce = true ∧
      (eventHandler cfg { a with writeFails := true } g).writes.length = g.writes.length + 1 ∧
      (eventHandler cfg { a with writeFails := false } g).writes.length
        = g.writes.length + 1) := by
  refine ⟨?_, ?_, ?_, ?_, ?_, fun h => ⟨?_, ?_, ?_, ?_⟩⟩
  · rw [eventHandler_inDeBounce, eventHandler_inDeBounce]
  · cases h : g.inDeBounce <;> simp [eventHandler, h]
  · rw [eventHandler_timerDelay, eventHandler_timerDelay]
  · rw [eventHandler_timerDeBounce, eventHandler_timerDeBounce]
  · cases h : g.inDeBounce <;>
      simp [eventHandler, h, eventMessage, eventLine, eventText, edgeName]
  · exact eventHandler_inDeBounce _ _ _
  · exact eventHandler_inDeBounce _ _ _
  · rw [(eventHandler_admitted cfg _ g h).1]; simp
  · rw [(eventHandler_admitted cfg _ g h).1]; simp

/-- Witness of C9: the first edge, admitted from the initial state. -/
theorem write_failure_does_not_affect_gate_witness :
    Gate.init.inDeBounce = false ∧
    (eventHandler sourceConfig { edgeAt 0 1 1 with writeFails := true } Gate.init).inDeBounce
      = true :=
  ⟨rfl, ((write_failure_does_not_affect_gate sourceConfig (edgeAt 0 1 1) Gate.init).2.2.2.2.2
    rfl).1⟩

/-! ## Timed runs (C1, C2) -/

theorem runTrace_cons_some (cfg : Config) (s s' : Timed) (e : Event) (es : List Event)
    (h : runTrace cfg s (e :: es) = some s') :
    ∃ s1, timedStep cfg s e = some s1 ∧ runTrace cfg s1 es = some s' := by
  simp only [runTrace] at h
  cases h1 : timedStep cfg s e with
  | none => simp [h1] at h
  | some s1 => exact ⟨s1, rfl, by simpa [h1] using h⟩

theorem runTrace_append_some (cfg : Config) (xs ys : List Event) :
    ∀ s s' : Timed, runTrace cfg s (xs ++ ys) = some s' →
      ∃ s1, runTrace cfg s xs = some s1 ∧ runTrace cfg s1 ys = some s' := by
  induction xs with
  | nil => intro s s' h; exact ⟨s, rfl, h⟩
  | cons e es ih =>
    intro s s' h
    obtain ⟨s1, h1, h2⟩ := runTrace_cons_some cfg s s' e (es ++ ys) h
    obtain ⟨s2, h3, h4⟩ := ih s1 s' h2
    exact ⟨s2, by simp [runTrace, h1, h3], h4⟩

theorem runTrace_single_some (cfg : Config) (s s' : Timed) (e : Event)
    (h : runTrace cfg s [e] = some s') : timedStep cfg s e = some s' := by
  obtain ⟨s1, h1, h2⟩ := runTrace_cons_some cfg s s' e [] h
  simp only [runTrace, Option.some.injEq] at h2
  rw [h1, h2]

theorem timedStep_edge (cfg : Config) (s s' : Timed) (a : Arrival)
    (h : timedStep cfg s (Event.edge a) = some s') :
    s.clock ≤ a.now ∧ s'.gate = eventHandler cfg a s.gate ∧ s'.loopFree = s.loopFree ∧
      s'.clock = a.now := by
  simp only [timedStep] at h
  by_cases c : s.clock ≤ a.now
  · simp only [c, if_true, Option.some.injEq] at h
    subst h
    exact ⟨c, rfl, rfl, rfl⟩
  · simp [c] at h

theorem timedStep_deBounce (cfg : Config) (s s' : Timed) (h : Nat)
    (hs : timedStep cfg s (Event.deBounceCase h) = some s') :
    ∃ d, s.gate.timerDeBounce = some d ∧ d ≤ h ∧ s.clock ≤ h ∧ s.loopFree ≤ h ∧
      s'.gate = onTimerDeBounce s.gate ∧ s'.loopFree = h + loopPause ∧ s'.clock = h := by
  simp only [timedStep] at hs
  cases hd : s.gate.timerDeBounce with
  | none => simp [hd] at hs
  | some d =>
    simp only [hd] at hs
    by_cases c : s.clock ≤ h ∧ s.loopFree ≤ h ∧ d ≤ h
    · simp only [c, and_self, if_true, Option.some.injEq] at hs
      subst hs
      exact ⟨d, rfl, c.2.2, c.1, c.2.1, rfl, rfl, rfl⟩
    · simp [c] at hs

theorem timedStep_delay (cfg : Config) (s s' : Timed) (h k : Nat)
    (hs : timedStep cfg s (Event.delayCase h k) = some s') :
    s.clock ≤ h ∧ s.loopFree ≤ h ∧ s'.gate = onTimerDelay s.gate ∧
      s'.loopFree = h + k + loopPause ∧ s'.clock = h := by
  simp only [timedStep] at hs
  cases hd : s.gate.timerDelay with
  | none => simp [hd] at hs
  | some d =>
    simp only [hd] at hs
    by_cases c : s.clock ≤ h ∧ s.loopFree ≤ h ∧ d ≤ h
    · simp only [c, and_self, if_true, Option.some.injEq] at hs
      subst hs
      exact ⟨c.1, c.2.1, rfl, rfl, rfl⟩
    · simp [c] at hs

/-- The window predicate survives every event. -/
theorem inWindow_step (cfg : Config) (t0 : Nat) (s s' : Timed) (e : Event)
    (h : timedStep cfg s e = some s') (inv : inWindow cfg t0 s) : inWindow cfg t0 s' := by
  cases e with
  | edge a =>
    obtain ⟨hc, hg, _, hk⟩ := timedStep_edge cfg s s' a h
    refine ⟨by rw [hk]; exact le_trans inv.1 hc, fun _ => ?_⟩
    rw [hg]
    refine ⟨eventHandler_inDeBounce cfg a s.gate, a.now + cfg.superDebounce,
      eventHandler_timerDeBounce cfg a s.gate, ?_⟩
    have := inv.1
    omega
  | deBounceCase t =>
    obtain ⟨d, hd, hdt, hc, _, _, _, hk⟩ := timedStep_deBounce cfg s s' t h
    refine ⟨by rw [hk]; exact le_trans inv.1 hc, fun hlt => ?_⟩
    exfalso
    rw [hk] at hlt
    obtain ⟨_, d', hd', hw⟩ := inv.2 (by omega)
    rw [hd] at hd'
    have : d = d' := Option.some.inj hd'
    omega
  | delayCase t k =>
    obtain ⟨hc, _, hg, _, hk⟩ := timedStep_delay cfg s s' t k h
    refine ⟨by rw [hk]; exact le_trans inv.1 hc, fun hlt => ?_⟩
    rw [hk] at hlt
    have := inv.2 (by omega)
    rw [hg]
    exact this

theorem inWindow_run (cfg : Config) (t0 : Nat) (es : List Event) :
    ∀ s s' : Timed, runTrace cfg s es = some s' → inWindow cfg t0 s → inWindow cfg t0 s' := by
  induction es with
  | nil =>
    intro s s' h inv
    simp only [runTrace, Option.some.injEq] at h
    rw [← h]; exact inv
  | cons e es ih =>
    intro s s' h inv
    obtain ⟨s1, h1, h2⟩ := runTrace_cons_some cfg s s' e es h
    exact ih s1 s' h2 (inWindow_step cfg t0 s s1 e h1 inv)

/-- Loop cases only, starting with no window expiry to read: the
`timerDeBounce` case cannot run and the gate keeps its `inDeBounce`. -/
theorem loop_only_idle (cfg : Config) (es : List Event) :
    ∀ s s' : Timed, (∀ e ∈ es, e.isEdge = false) → runTrace cfg s es = some s' →
      s.gate.timerDeBounce = none →
      s'.gate.inDeBounce = s.gate.inDeBounce ∧ s'.gate.writes = s.gate.writes ∧
      (∀ h, Event.deBounceCase h ∉ es) ∧ s.clock ≤ s'.clock := by
  induction es with
  | nil =>
    intro s s' _ h _
    simp only [runTrace, Option.some.injEq] at h
    subst h
    exact ⟨rfl, rfl, fun h => by simp, le_refl _⟩
  | cons e es ih =>
    intro s s' hne h hn
    obtain ⟨s1, h1, h2⟩ := runTrace_cons_some cfg s s' e es h
    have hne' : ∀ x ∈ es, x.isEdge = false := fun x hx => hne x (List.mem_cons_of_mem _ hx)
    cases e with
    | edge a => have := hne (Event.edge a) (List.mem_cons_self _ _); simp [Event.isEdge] at this
    | deBounceCase t =>
      obtain ⟨d, hd, _⟩ := timedStep_deBounce cfg s s1 t h1
      rw [hn] at hd
      exact absurd hd (by simp)
    | delayCase t k =>
      obtain ⟨hc, _, hg, _, hk⟩ := timedStep_delay cfg s s1 t k h1
      have hn1 : s1.gate.timerDeBounce = none := by rw [hg]; exact hn
      obtain ⟨i1, i2, i3, i4⟩ := ih s1 s' hne' h2 hn1
      refine ⟨?_, ?_, ?_, ?_⟩
      · rw [i1, hg]; rfl
      · rw [i2, hg]; rfl
      · intro x hx
        rcases List.mem_cons.mp hx with hx | hx
        · cases hx
        · exact i3 x hx
      · omega

/-- Loop cases only, after an edge left the window timer due at `D`: the gate
leaves debounce exactly when the `timerDeBounce` case runs, which is at or
after `D`. -/
theorem loop_only_after_edge (cfg : Config) (D : Nat) (es : List Event) :
    ∀ s s' : Timed, (∀ e ∈ es, e.isEdge = false) → runTrace cfg s es = some s' →
      s.gate.inDeBounce = true → s.gate.timerDeBounce = some D →
      s'.gate.writes = s.gate.writes ∧
      ((∃ h, Event.deBounceCase h ∈ es) → s'.gate.inDeBounce = false) ∧
      ((∀ h, Event.deBounceCase h ∉ es) →
        s'.gate.inDeBounce = true ∧ s'.gate.iDebounceCnt = s.gate.iDebounceCnt ∧
          s'.gate.timerDeBounce = some D) ∧
      (∀ h, Event.deBounceCase h ∈ es → D ≤ h ∧ h ≤ s'.clock) := by
  induction es with
  | nil =>
    intro s s' _ h hi hD
    simp only [runTrace, Option.some.injEq] at h
    subst h
    exact ⟨rfl, fun ⟨x, hx⟩ => by simp at hx, fun _ => ⟨hi, rfl, hD⟩, fun x hx => by simp at hx⟩
  | cons e es ih =>
    intro s s' hne h hi hD
    obtain ⟨s1, h1, h2⟩ := runTrace_cons_some cfg s s' e es h
    have hne' : ∀ x ∈ es, x.isEdge = false := fun x hx => hne x (List.mem_cons_of_mem _ hx)
    cases e with
    | edge a => have := hne (Event.edge a) (List.mem_cons_self _ _); simp [Event.isEdge] at this
    | deBounceCase t =>
      obtain ⟨d, hd, hdt, _, _, hg, _, hk⟩ := timedStep_deBounce cfg s s1 t h1
      rw [hD] at hd
      have hDd : D = d := Option.some.inj hd
      have hn1 : s1.gate.timerDeBounce = none := by rw [hg]; rfl
      obtain ⟨i1, i2, i3, i4⟩ := loop_only_idle cfg es s1 s' hne' h2 hn1
      refine ⟨?_, fun _ => ?_, fun hno => ?_, fun x hx => ?_⟩
      · rw [i2, hg]; rfl
      · rw [i1, hg]; rfl
      · exact absurd (List.mem_cons_self _ _) (hno t)
      · rcases List.mem_cons.mp hx with hx | hx
        · have : x = t := by injection hx
          subst this
          exact ⟨by omega, by omega⟩
        · exact absurd hx (i3 x)
    | delayCase t k =>
      obtain ⟨_, _, hg, _, _⟩ := timedStep_delay cfg s s1 t k h1
      have hi1 : s1.gate.inDeBounce = true := by rw [hg]; exact hi
      have hD1 : s1.gate.timerDeBounce = some D := by rw [hg]; exact hD
      obtain ⟨i1, i2, i3, i4⟩ := ih s1 s' hne' h2 hi1 hD1
      refine ⟨?_, fun ⟨x, hx⟩ => ?_, fun hno => ?_, fun x hx => ?_⟩
      · rw [i1, hg]; rfl
      · rcases List.mem_cons.mp hx with hx | hx
        · cases hx
        · exact i2 ⟨x, hx⟩
      · have := i3 (fun x hx => hno x (List.mem_cons_of_mem _ hx))
        rw [this.1, this.2.1, this.2.2, hg]
        exact ⟨rfl, rfl, rfl⟩
      · rcases List.mem_cons.mp hx with hx | hx
        · cases hx
        · exact i4 x hx

theorem loopFree_step (cfg : Config) (s s' : Timed) (e : Event)
    (h : timedStep cfg s e = some s') :
    s.loopFree ≤ s'.loopFree ∧ (e.isEdge = false → e.time + loopPause ≤ s'.loopFree) ∧
      (e.isEdge = false → s.loopFree ≤ e.time) := by
  cases e with
  | edge a =>
    obtain ⟨_, _, hl, _⟩ := timedStep_edge cfg s s' a h
    exact ⟨by omega, fun c => by simp [Event.isEdge] at c, fun c => by simp [Event.isEdge] at c⟩
  | deBounceCase t =>
    obtain ⟨d, _, _, _, hf, _, hl, _⟩ := timedStep_deBounce cfg s s' t h
    simp only [Event.time]
    exact ⟨by omega, fun _ => by omega, fun _ => hf⟩
  | delayCase t k =>
    obtain ⟨_, hf, _, hl, _⟩ := timedStep_delay cfg s s' t k h
    simp only [Event.time]
    exact ⟨by omega, fun _ => by omega, fun _ => hf⟩

theorem loopFree_run (cfg : Config) (es : List Event) :
    ∀ s s' : Timed, runTrace cfg s es = some s' → s.loopFree ≤ s'.loopFree := by
  induction es with
  | nil =>
    intro s s' h
    simp only [runTrace, Option.some.injEq] at h
    rw [h]
  | cons e es ih =>
    intro s s' h
    obtain ⟨s1, h1, h2⟩ := runTrace_cons_some cfg s s' e es h
    exact le_trans (loopFree_step cfg s s1 e h1).1 (ih s1 s' h2)

/-- C1 (amended).  In the timed runs of the code (the handler, the two timer
cases of the main loop and its 2 s pause), for every configuration:
(1) the first edge from Idle is written;
(2) after an edge at `t0`, every later edge arriving before `t0 + W` is not
written to the event file, it is only counted;
(3) every edge re-arms the window, so an edge is written exactly when the main
loop has run its `timerDeBounce` case since the edge just before it, and that
case runs no earlier than `W` after that edge; until it runs the expiry stays
due at `W` after that edge;
(4) two cases of the main loop are at least the pause apart, so the case can
run late, and an expiry it has not read is discarded by the next edge;
(5) the case, when it runs, clears `inDeBounce` and the count;
(6) with a 1 s window, an edge at 0, the case at 1 s and an edge at 1.5 s, the
loop cannot run the case at 2.5 s, and an edge at 2.7 s is counted, not
written. -/
theorem admission_by_loop_case (cfg : Config) :
    (∀ a : Arrival,
      (runTrace cfg Timed.init [Event.edge a]).map (fun s => s.gate.writes)
        = some [eventMessage a]) ∧
    (∀ (pre : List Event) (a : Arrival) (mid : List Event) (b : Arrival) (s s' : Timed),
      runTrace cfg Timed.init (pre ++ Event.edge a :: mid) = some s →
      runTrace cfg Timed.init (pre ++ Event.edge a :: mid ++ [Event.edge b]) = some s' →
      b.now < a.now + cfg.superDebounce →
      s'.gate.writes = s.gate.writes ∧
        s'.gate.iDebounceCnt = wrapInt cfg.intSize (s.gate.iDebounceCnt + 1)) ∧
    (∀ (pre : List Event) (p : Arrival) (mid : List Event) (b : Arrival) (s s' : Timed),
      (∀ e ∈ mid, e.isEdge = false) →
      runTrace cfg Timed.init (pre ++ Event.edge p :: mid) = some s →
      runTrace cfg Timed.init (pre ++ Event.edge p :: mid ++ [Event.edge b]) = some s' →
      ((∃ h, Event.deBounceCase h ∈ mid) →
        s'.gate.writes = s.gate.writes ++ [eventMessage b]) ∧
      ((∀ h, Event.deBounceCase h ∉ mid) →
        s.gate.timerDeBounce = some (p.now + cfg.superDebounce) ∧
        s'.gate.writes = s.gate.writes ∧
          s'.gate.iDebounceCnt = wrapInt cfg.intSize (s.gate.iDebounceCnt + 1)) ∧
      (∀ h, Event.deBounceCase h ∈ mid → p.now + cfg.superDebounce ≤ h ∧ h ≤ b.now)) ∧
    (∀ (pre : List Event) (e1 : Event) (mid : List Event) (e2 : Event) (s : Timed),
      e1.isEdge = false → e2.isEdge = false →
      runTrace cfg Timed.init (pre ++ e1 :: mid ++ [e2]) = some s →
      e1.time + loopPause ≤ e2.time) ∧
    (∀ (s : Timed) (d h : Nat), s.gate.timerDeBounce = some d →
      s.clock ≤ h → s.loopFree ≤ h → d ≤ h →
      (timedStep cfg s (Event.deBounceCase h)).map
          (fun s' => (s'.gate.inDeBounce, s'.gate.iDebounceCnt, s'.gate.writes))
        = some (false, 0, s.gate.writes)) ∧
    (runTrace oneSecondWindow Timed.init
        [Event.edge (edgeAt 0 1 1), Event.deBounceCase 1000000000,
          Event.edge (edgeAt 1500000000 2 2)]).map (fun s => s.gate.writes.length) = some 2 ∧
    runTrace oneSecondWindow Timed.init
        [Event.edge (edgeAt 0 1 1), Event.deBounceCase 1000000000,
          Event.edge (edgeAt 1500000000 2 2), Event.deBounceCase 2500000000] = none ∧
    (runTrace oneSecondWindow Timed.init
        [Event.edge (edgeAt 0 1 1), Event.deBounceCase 1000000000,
          Event.edge (edgeAt 1500000000 2 2), Event.edge (edgeAt 2700000000 1 3)]).map
        (fun s => (s.gate.writes.length, s.gate.iDebounceCnt)) = some (2, 1) := by
  refine ⟨fun a => ?_, fun pre a mid b s s' hs hs' hlt => ?_,
    fun pre p mid b s s' hne hs hs' => ?_, fun pre e1 mid e2 s n1 n2 hs => ?_,
    fun s d h hd hc hf hdh => ?_, by decide, by decide, by decide⟩
  · have e : runTrace cfg Timed.init [Event.edge a]
        = some { gate := eventHandler cfg a Gate.init, loopFree := 0, clock := a.now } := by
      simp [runTrace, timedStep, Timed.init]
    rw [e]
    simp only [Option.map_some']
    rw [(eventHandler_admitted cfg a Gate.init rfl).1]; rfl
  · obtain ⟨s0, h0, h1⟩ := runTrace_append_some cfg pre (Event.edge a :: mid) _ _ hs
    obtain ⟨s1, h2, h3⟩ := runTrace_cons_some cfg s0 s (Event.edge a) mid h1
    obtain ⟨_, hg, _, hk⟩ := timedStep_edge cfg s0 s1 a h2
    have inv1 : inWindow cfg a.now s1 := by
      refine ⟨by rw [hk], fun _ => ?_⟩
      rw [hg]
      exact ⟨eventHandler_inDeBounce cfg a s0.gate, a.now + cfg.superDebounce,
        eventHandler_timerDeBounce cfg a s0.gate, le_refl _⟩
    have inv := inWindow_run cfg a.now mid s1 s h3 inv1
    obtain ⟨s2, h4, h5⟩ := runTrace_append_some cfg (pre ++ Event.edge a :: mid)
      [Event.edge b] _ _ hs'
    rw [hs] at h4
    have h6 : s2 = s := (Option.some.inj h4).symm
    subst h6
    obtain ⟨hcb, hgb, _, _⟩ := timedStep_edge cfg s2 s' b (runTrace_single_some cfg s2 s' _ h5)
    have hin := (inv.2 (by omega)).1
    have hsup := eventHandler_suppressed cfg b s2.gate hin
    rw [hgb]
    exact ⟨hsup.1, hsup.2.2⟩
  · obtain ⟨s0, h0, h1⟩ := runTrace_append_some cfg pre (Event.edge p :: mid) _ _ hs
    obtain ⟨s1, h2, h3⟩ := runTrace_cons_some cfg s0 s (Event.edge p) mid h1
    obtain ⟨_, hg, _, hk⟩ := timedStep_edge cfg s0 s1 p h2
    have hi1 : s1.gate.inDeBounce = true := by rw [hg]; exact eventHandler_inDeBounce _ _ _
    have hD1 : s1.gate.timerDeBounce = some (p.now + cfg.superDebounce) := by
      rw [hg]; exact eventHandler_timerDeBounce _ _ _
    obtain ⟨j1, j2, j3, j4⟩ :=
      loop_only_after_edge cfg (p.now + cfg.superDebounce) mid s1 s hne h3 hi1 hD1
    obtain ⟨s2, h4, h5⟩ := runTrace_append_some cfg (pre ++ Event.edge p :: mid)
      [Event.edge b] _ _ hs'
    rw [hs] at h4
    have h6 : s2 = s := (Option.some.inj h4).symm
    subst h6
    obtain ⟨hcb, hgb, _, _⟩ := timedStep_edge cfg s2 s' b (runTrace_single_some cfg s2 s' _ h5)
    refine ⟨fun hex => ?_, fun hno => ?_, fun h hh => ?_⟩
    · rw [hgb, (eventHandler_admitted cfg b s2.gate (j2 hex)).1]
    · have hsup := eventHandler_suppressed cfg b s2.gate (j3 hno).1
      rw [hgb]
      exact ⟨(j3 hno).2.2, hsup.1, hsup.2.2⟩
    · have := j4 h hh
      exact ⟨this.1, le_trans this.2 hcb⟩
  · obtain ⟨s0, h0, h1⟩ := runTrace_append_some cfg (pre ++ e1 :: mid) [e2] _ _ hs
    obtain ⟨sp, h2, h3⟩ := runTrace_append_some cfg pre (e1 :: mid) _ _ h0
    obtain ⟨s1, h4, h5⟩ := runTrace_cons_some cfg sp s0 e1 mid h3
    have a1 := (loopFree_step cfg sp s1 e1 h4).2.1 n1
    have a2 := loopFree_run cfg mid s1 s0 h5
    have a3 := (loopFree_step cfg s0 s e2 (runTrace_single_some cfg s0 s e2 h1)).2.2 n2
    omega
  · simp [timedStep, hd, hc, hf, hdh, onTimerDeBounce]

/-- Witness of C1: with the 2 s window, edges at 0, 0.1 s and 0.5 s; the third
arrives inside the window of the first and is not written. -/
theorem admission_by_loop_case_witness :
    runTrace sourceConfig Timed.init
        ([] ++ Event.edge (edgeAt 0 1 1) :: [Event.edge (edgeAt 100000000 2 2)])
      = some { gate := handleAll sourceConfig Gate.init [edgeAt 0 1 1, edgeAt 100000000 2 2],
               loopFree := 0, clock := 100000000 } ∧
    runTrace sourceConfig Timed.init
        ([] ++ Event.edge (edgeAt 0 1 1) :: [Event.edge (edgeAt 100000000 2 2)] ++
          [Event.edge (edgeAt 500000000 1 3)])
      = some { gate := handleAll sourceConfig Gate.init
                 [edgeAt 0 1 1, edgeAt 100000000 2 2, edgeAt 500000000 1 3],
               loopFree := 0, clock := 500000000 } ∧
    (edgeAt 500000000 1 3).now < (edgeAt 0 1 1).now + sourceConfig.superDebounce ∧
    (handleAll sourceConfig Gate.init
        [edgeAt 0 1 1, edgeAt 100000000 2 2, edgeAt 500000000 1 3]).writes
      = (handleAll sourceConfig Gate.init [edgeAt 0 1 1, edgeAt 100000000 2 2]).writes :=
  ⟨by decide, by decide, by decide,
   ((admission_by_loop_case sourceConfig).2.1 [] (edgeAt 0 1 1)
      [Event.edge (edgeAt 100000000 2 2)] (edgeAt 500000000 1 3)
      { gate := handleAll sourceConfig Gate.init [edgeAt 0 1 1, edgeAt 100000000 2 2],
        loopFree := 0, clock := 100000000 }
      { gate := handleAll sourceConfig Gate.init
          [edgeAt 0 1 1, edgeAt 100000000 2 2, edgeAt 500000000 1 3],
        loopFree := 0, clock := 500000000 }
      (by decide) (by decide) (by decide)).1⟩

/-- Counterexample to C1 as stated: with the 2 s window and edges at 0, 1 s and
2 s, the first edge is admitted at `t0 = 0`, the edge at 1 s is suppressed and
re-arms the window for 3 s, so no timer case can run in between, and the edge
at 2 s, the first to arrive at or after `t0 + W`, is not written: still one
line, the count goes to 2. -/
theorem edge_at_window_end_not_admitted :
    (runTrace sourceConfig Timed.init [Event.edge (edgeAt 0 1 1)]).map
        (fun s => s.gate.writes) = some [eventMessage (edgeAt 0 1 1)] ∧
    (edgeAt 0 1 1).now + sourceConfig.superDebounce ≤ (edgeAt 2000000000 1 3).now ∧
    runTrace sourceConfig Timed.init
        [Event.edge (edgeAt 0 1 1), Event.deBounceCase 1000000000] = none ∧
    runTrace sourceConfig Timed.init
        [Event.edge (edgeAt 0 1 1), Event.edge (edgeAt 1000000000 2 2),
          Event.deBounceCase 2000000000] = none ∧
    (runTrace sourceConfig Timed.init
        [Event.edge (edgeAt 0 1 1), Event.edge (edgeAt 1000000000 2 2),
          Event.edge (edgeAt 2000000000 1 3)]).map
        (fun s => (s.gate.writes, s.gate.iDebounceCnt))
      = some ([eventMessage (edgeAt 0 1 1)], 2) := by
  decide

theorem runTrace_append (cfg : Config) (xs ys : List Event) :
    ∀ s : Timed, runTrace cfg s (xs ++ ys)
      = (runTrace cfg s xs).bind (fun s1 => runTrace cfg s1 ys) := by
  induction xs with
  | nil => intro s; rfl
  | cons e es ih =>
    intro s
    simp only [List.cons_append, runTrace]
    cases timedStep cfg s e with
    | none => rfl
    | some s1 => simp [ih s1]

/-- C2 (amended).  A suppressed edge re-arms both timers: for every gate state
with `inDeBounce` true, after `eventHandler` at instant `t` the pending expiry
of `timerDeBounce` is `t + superDebounce` and that of `timerDelay` is
`t + pauseDur`, nothing is written and the count goes up by one.  With the 2 s
window and edges at 0, 0.1 s and 0.5 s the gate is in debounce with count 2 and
the window timer is pending for 2.5 s; the main loop cannot run its
`timerDeBounce` case at 2.0 s nor at any instant before 2.5 s, and at 2.5 s it
runs it and the count goes from 2 back to 0. -/
theorem suppressed_edge_rearms_window (cfg : Config) (a : Arrival) (g : Gate)
    (h : g.inDeBounce = true) :
    (eventHandler cfg a g).timerDeBounce = some (a.now + cfg.superDebounce) ∧
    (eventHandler cfg a g).timerDelay = some (a.now + cfg.pauseDur) ∧
    (eventHandler cfg a g).writes = g.writes ∧
    (eventHandler cfg a g).iDebounceCnt = wrapInt cfg.intSize (g.iDebounceCnt + 1) ∧
    (runTrace sourceConfig Timed.init
        [Event.edge (edgeAt 0 1 1), Event.edge (edgeAt 100000000 2 2),
          Event.edge (edgeAt 500000000 1 3)]).map
        (fun s => (s.gate.inDeBounce, s.gate.iDebounceCnt, s.gate.timerDeBounce))
      = some (true, 2, some 2500000000) ∧
    runTrace sourceConfig Timed.init
        [Event.edge (edgeAt 0 1 1), Event.edge (edgeAt 100000000 2 2),
          Event.edge (edgeAt 500000000 1 3), Event.deBounceCase 2000000000] = none ∧
    runTrace sourceConfig Timed.init
        [Event.edge (edgeAt 0 1 1), Event.edge (edgeAt 100000000 2 2),
          Event.edge (edgeAt 500000000 1 3), Event.deBounceCase 2499999999] = none ∧
    (∀ t : Nat, t < 2500000000 →
      runTrace sourceConfig Timed.init
        ([Event.edge (edgeAt 0 1 1), Event.edge (edgeAt 100000000 2 2),
          Event.edge (edgeAt 500000000 1 3)] ++ [Event.deBounceCase t]) = none) ∧
    (runTrace sourceConfig Timed.init
        [Event.edge (edgeAt 0 1 1), Event.edge (edgeAt 100000000 2 2),
          Event.edge (edgeAt 500000000 1 3), Event.deBounceCase 2500000000]).map
        (fun s => (s.gate.inDeBounce, s.gate.iDebounceCnt)) = some (false, 0) := by
  have hs := eventHandler_suppressed cfg a g h
  refine ⟨eventHandler_timerDeBounce cfg a g, eventHandler_timerDelay cfg a g, hs.1, hs.2.2,
    by decide, by decide, by decide, fun t ht => ?_, by decide⟩
  have e3 : runTrace sourceConfig Timed.init
      [Event.edge (edgeAt 0 1 1), Event.edge (edgeAt 100000000 2 2),
        Event.edge (edgeAt 500000000 1 3)]
      = some { gate := handleAll sourceConfig Gate.init
                 [edgeAt 0 1 1, edgeAt 100000000 2 2, edgeAt 500000000 1 3],
               loopFree := 0, clock := 500000000 } := by decide
  have hT : (handleAll sourceConfig Gate.init
      [edgeAt 0 1 1, edgeAt 100000000 2 2, edgeAt 500000000 1 3]).timerDeBounce
      = some 2500000000 := by decide
  rw [runTrace_append, e3]
  have hn : ¬ (500000000 ≤ t ∧ 0 ≤ t ∧ 2500000000 ≤ t) := by omega
  simp only [Option.some_bind, runTrace, timedStep, hT, hn, if_false, Option.none_bind]

/-- Witness of C2: the edge at 0.1 s, arriving in the state left by the edge at 0. -/
theorem suppressed_edge_rearms_window_witness :
    (handleAll sourceConfig Gate.init [edgeAt 0 1 1]).inDeBounce = true ∧
    (eventHandler sourceConfig (edgeAt 100000000 2 2)
        (handleAll sourceConfig Gate.init [edgeAt 0 1 1])).timerDeBounce = some 2100000000 :=
  ⟨by decide,
   (suppressed_edge_rearms_window sourceConfig (edgeAt 100000000 2 2)
      (handleAll sourceConfig Gate.init [edgeAt 0 1 1]) (by decide)).1⟩

/-- Counterexample to C2 as stated: the edge at 0.1 s arrives with `inDeBounce`
true and the window timer pending for 2.0 s, and leaves it pending for 2.1 s;
after the edges at 0, 0.1 s and 0.5 s the timer has not fired at 2.0 s, where
the main loop cannot run its case and the count is still 2. -/
theorem suppressed_edge_moves_window_expiry :
    (handleAll sourceConfig Gate.init [edgeAt 0 1 1]).inDeBounce = true ∧
    (handleAll sourceConfig Gate.init [edgeAt 0 1 1]).timerDeBounce = some 2000000000 ∧
    (eventHandler sourceConfig (edgeAt 100000000 2 2)
        (handleAll sourceConfig Gate.init [edgeAt 0 1 1])).timerDeBounce = some 2100000000 ∧
    (eventHandler sourceConfig (edgeAt 100000000 2 2)
        (handleAll sourceConfig Gate.init [edgeAt 0 1 1])).timerDeBounce
      ≠ (handleAll sourceConfig Gate.init [edgeAt 0 1 1]).timerDeBounce ∧
    (runTrace sourceConfig Timed.init
        [Event.edge (edgeAt 0 1 1), Event.edge (edgeAt 100000000 2 2),
          Event.edge (edgeAt 500000000 1 3)]).map (fun s => s.gate.iDebounceCnt) = some 2 ∧
    runTrace sourceConfig Timed.init
        [Event.edge (edgeAt 0 1 1), Event.edge (edgeAt 100000000 2 2),
          Event.edge (edgeAt 500000000 1 3), Event.deBounceCase 2000000000] = none := by
  decide

/-! ## The pairing heuristic (C4, C5, C6) -/

theorem runeAt_some (rs : List Char) (i : Int) (x : Char) (h : runeAt rs i = some x) :
    0 ≤ i ∧ i < rs.length := by
  unfold runeAt at h
  by_cases c : i < 0
  · simp [c] at h
  · simp only [c, if_false] at h
    have := (List.getElem?_eq_some_iff.mp h).1
    omega

theorem areDevicesPaired_true (a b : GoString) (h : areDevicesPaired a b = some true) :
    2 ≤ a.length ∧ 2 ≤ b.length := by
  unfold areDevicesPaired at h
  cases h1 : runeAt a ((byteLen a : Int) - 1) with
  | none => simp [h1] at h
  | some x1 =>
    cases h2 : runeAt b ((byteLen b : Int) - 1) with
    | none => simp [h1, h2] at h
    | some y1 =>
      by_cases c : x1 = y1
      · cases h3 : runeAt a ((byteLen a : Int) - 2) with
        | none => simp [h1, h2, c, h3] at h
        | some x2 =>
          cases h4 : runeAt b ((byteLen b : Int) - 2) with
          | none => simp [h1, h2, c, h3, h4] at h
          | some y2 =>
            have p1 := runeAt_some _ _ _ h1
            have p2 := runeAt_some _ _ _ h2
            have p3 := runeAt_some _ _ _ h3
            have p4 := runeAt_some _ _ _ h4
            omega
      · exfalso
        simp only [h1, h2, c, Option.bind_eq_bind, Option.some_bind, if_false,
          Option.pure_def, Bool.false_and] at h
        cases h5 : runeAt a 0 with
        | none => simp [h5] at h
        | some r =>
          by_cases cr : r = 'r'
          · cases h6 : runeAt b 0 with
            | none => simp [h5, cr, h6] at h
            | some f => simp [h5, cr, h6] at h
          · simp [h5, cr] at h


theorem areDevicesPaired_nil_left (b : GoString) : areDevicesPaired [] b = none := by
  simp [areDevicesPaired, byteLen, runeAt]

theorem runeAt_nil (i : Int) : runeAt [] i = none := by
  unfold runeAt; split <;> simp

theorem areDevicesPaired_nil_right (a : GoString) : areDevicesPaired a [] = none := by
  unfold areDevicesPaired
  cases h1 : runeAt a ((byteLen a : Int) - 1) with
  | none => simp [h1]
  | some x1 => simp [h1, runeAt_nil]

theorem runeAt_last_ascii (a : GoString) (ha : isASCII a) (hne : a ≠ []) :
    runeAt a ((byteLen a : Int) - 1) = a.getLast? := by
  have hl : 1 ≤ a.length := by
    cases a with
    | nil => exact absurd rfl hne
    | cons c cs => simp
  rw [byteLen_ascii a ha, List.getLast?_eq_getElem?]
  have := runeAt_ofNat a a.length 1 hl
  simpa using this

theorem pairing_of_short_ascii (a b : GoString) (ha : isASCII a) (hb : isASCII b)
    (hs : a.length < 2 ∨ b.length < 2) (ane : a ≠ []) (bne : b ≠ []) :
    (a.getLast? = b.getLast? → areDevicesPaired a b = none) ∧
    (a.getLast? ≠ b.getLast? → areDevicesPaired a b = some false) := by
  have la := runeAt_last_ascii a ha ane
  have lb := runeAt_last_ascii b hb bne
  obtain ⟨x, hx⟩ : ∃ x, a.getLast? = some x := by
    cases h : a.getLast? with
    | none => exact absurd (List.getLast?_eq_none_iff.mp h) ane
    | some x => exact ⟨x, rfl⟩
  obtain ⟨y, hy⟩ : ∃ y, b.getLast? = some y := by
    cases h : b.getLast? with
    | none => exact absurd (List.getLast?_eq_none_iff.mp h) bne
    | some y => exact ⟨y, rfl⟩
  rw [hx] at la
  rw [hy] at lb
  have a0 : runeAt a 0 = some (a.head ane) := by
    rw [runeAt_zero]; cases a with
    | nil => exact absurd rfl ane
    | cons c cs => simp
  have b0 : runeAt b 0 = some (b.head bne) := by
    rw [runeAt_zero]; cases b with
    | nil => exact absurd rfl bne
    | cons c cs => simp
  constructor
  · intro he
    rw [hx, hy] at he
    have hxy : x = y := Option.some.inj he
    cases h : areDevicesPaired a b with
    | none => rfl
    | some v =>
      exfalso
      unfold areDevicesPaired at h
      simp only [la, lb, hxy, Option.bind_eq_bind, Option.some_bind, if_true] at h
      cases h3 : runeAt a ((byteLen a : Int) - 2) with
      | none => simp [h3] at h
      | some x2 =>
        cases h4 : runeAt b ((byteLen b : Int) - 2) with
        | none => simp [h3, h4] at h
        | some y2 =>
          have p3 := runeAt_some _ _ _ h3
          have p4 := runeAt_some _ _ _ h4
          rw [byteLen_ascii a ha] at p3
          rw [byteLen_ascii b hb] at p4
          omega
  · intro hne
    rw [hx, hy] at hne
    have hxy : ¬ x = y := fun e => hne (by rw [e])
    unfold areDevicesPaired
    simp only [la, lb, hxy, a0, b0, Option.bind_eq_bind, Option.some_bind, if_false,
      Option.pure_def, Bool.false_and]
    by_cases cr : a.head ane = 'r' <;> simp [cr]

/-- C4.  For ASCII identifiers of at least 2 characters `areDevicesPaired`
returns, without failing, the value of the reference definition: true exactly
when the last characters agree, the second-to-last characters agree, the first
identifier starts with `r` and the second with `f`.  The three pairs of the
specification give true, false (order matters) and false (different line). -/
theorem areDevicesPaired_refines_spec (a b : GoString) (ha : isASCII a) (hb : isASCII b)
    (la : 2 ≤ a.length) (lb : 2 ≤ b.length) :
    areDevicesPaired a b = some (arePairedSpec a b) ∧
    (arePairedSpec a b = true ↔
      a.getLast? = b.getLast? ∧ a.dropLast.getLast? = b.dropLast.getLast? ∧
        a.head? = some 'r' ∧ b.head? = some 'f') ∧
    areDevicesPaired "rising17".toList "falling17".toList = some true ∧
    areDevicesPaired "falling17".toList "rising17".toList = some false ∧
    areDevicesPaired "rising17".toList "falling27".toList = some false := by
  refine ⟨areDevicesPaired_eq_spec a b ha hb la lb, ?_, by decide, by decide, by decide⟩
  have r0 : ∀ s : GoString, s.reverse[0]? = s.getLast? := by
    intro s; rw [← List.head?_eq_getElem?, List.head?_reverse]
  have r1 : ∀ s : GoString, s.reverse[1]? = s.dropLast.getLast? := by
    intro s
    rcases List.eq_nil_or_concat s with hs | ⟨ys, p, hs⟩
    · rw [hs]; rfl
    · rw [hs, List.concat_eq_append, List.dropLast_concat, ← r0 ys]; simp
  have h0 : ∀ s : GoString, s[0]? = s.head? := fun s => (List.head?_eq_getElem? s).symm
  unfold arePairedSpec
  simp only [Bool.and_eq_true, decide_eq_true_eq, r0, r1, h0, and_assoc]

/-- Witness of C4. -/
theorem areDevicesPaired_refines_spec_witness :
    areDevicesPaired "rising17".toList "falling17".toList
      = some (arePairedSpec "rising17".toList "falling17".toList) :=
  (areDevicesPaired_refines_spec "rising17".toList "falling17".toList
    (by unfold isASCII; decide) (by unfold isASCII; decide) (by decide) (by decide)).1

/-- C5 (amended).  When at least one identifier is shorter than 2 characters
`areDevicesPaired` never returns true.  It fails with an index out of range
when an identifier is empty, and for non-empty ASCII identifiers when the last
characters are equal; it completes and returns false for non-empty ASCII
identifiers whose last characters differ, as for `("r", "f")`. -/
theorem areDevicesPaired_short (a b : GoString) (hs : a.length < 2 ∨ b.length < 2) :
    areDevicesPaired a b ≠ some true ∧
    (a = [] ∨ b = [] → areDevicesPaired a b = none) ∧
    (isASCII a → isASCII b → a ≠ [] → b ≠ [] →
      (a.getLast? = b.getLast? → areDevicesPaired a b = none) ∧
      (a.getLast? ≠ b.getLast? → areDevicesPaired a b = some false)) ∧
    areDevicesPaired "r".toList "f".toList = some false := by
  refine ⟨fun ht => ?_, fun he => ?_, fun ha hb ane bne => ?_, by decide⟩
  · have := areDevicesPaired_true a b ht
    omega
  · rcases he with he | he
    · rw [he]; exact areDevicesPaired_nil_left b
    · rw [he]; exact areDevicesPaired_nil_right a
  · exact pairing_of_short_ascii a b ha hb hs ane bne

/-- Witness of C5: `("r", "f")`. -/
theorem areDevicesPaired_short_witness :
    ("r".toList.length < 2 ∨ "f".toList.length < 2) ∧
    areDevicesPaired "r".toList "f".toList ≠ some true :=
  ⟨by decide, (areDevicesPaired_short "r".toList "f".toList (by decide)).1⟩

/-- Counterexample to C5 as stated: on `("r", "r")`, on `("", "f")` and on
`("rising17", "7")` the call fails with an index out of range instead of
returning false. -/
theorem areDevicesPaired_short_fails :
    areDevicesPaired "r".toList "r".toList = none ∧
    areDevicesPaired "".toList "f".toList = none ∧
    areDevicesPaired "rising17".toList "7".toList = none := by
  decide

set_option maxRecDepth 100000

/-- C6.  For line numbers `m` and `n` in 0..99 written in decimal without
leading zeros, `areDevicesPaired("rising" + m, "falling" + n)` returns true
exactly when `m = n`. -/
theorem areDevicesPaired_line_numbers :
    ∀ m < 100, ∀ n < 100,
      areDevicesPaired ("rising".toList ++ formatUint m) ("falling".toList ++ formatUint n)
        = some (decide (m = n)) := by
  decide

/-- Witness of C6: line 7 against line 17. -/
theorem areDevicesPaired_line_numbers_witness :
    areDevicesPaired ("rising".toList ++ formatUint 7) ("falling".toList ++ formatUint 17)
      = some (decide (7 = 17)) :=
  areDevicesPaired_line_numbers 7 (by decide) 17 (by decide)


/-! ## Layout of the logged line (C10) -/


theorem isASCII_nil : isASCII [] := by intro c hc; simp at hc

theorem isASCII_cons (c : Char) (s : GoString) (hc : c.toNat < 128) (hs : isASCII s) :
    isASCII (c :: s) := by
  intro x hx
  rcases List.mem_cons.mp hx with h | h
  · rw [h]; exact hc
  · exact hs x h

theorem isASCII_append (s t : GoString) (hs : isASCII s) (ht : isASCII t) :
    isASCII (s ++ t) := by
  intro x hx
  rcases List.mem_append.mp hx with h | h
  · exact hs x h
  · exact ht x h

theorem isASCII_replicate (n : Nat) (c : Char) (hc : c.toNat < 128) :
    isASCII (List.replicate n c) := by
  intro x hx
  rw [(List.mem_replicate.mp hx).2]; exact hc

theorem digitChar_ascii (d : Nat) (h : d < 10) : (Nat.digitChar d).toNat < 128 := by
  interval_cases d <;> decide

theorem fmtBits_pos (f u : Nat) (acc : List Char) (hf : 0 < f) :
    fmtBits f u acc =
      if u < 10 then Nat.digitChar u :: acc
      else fmtBits (f - 1) (u / 10) (Nat.digitChar (u % 10) :: acc) := by
  cases f with
  | zero => omega
  | succ n => rfl

theorem formatUint_one (n : Nat) (h : n < 10) : formatUint n = [Nat.digitChar n] := by
  unfold formatUint
  rw [fmtBits_pos _ _ _ (by omega)]
  simp [h]

theorem formatUint_two (n : Nat) (h1 : 10 ≤ n) (h2 : n < 100) :
    formatUint n = [Nat.digitChar (n / 10), Nat.digitChar (n % 10)] := by
  unfold formatUint
  rw [fmtBits_pos _ _ _ (by omega), if_neg (by omega), fmtBits_pos _ _ _ (by omega),
    if_pos (by omega)]

theorem formatUint_three (n : Nat) (h1 : 100 ≤ n) (h2 : n < 1000) :
    formatUint n
      = [Nat.digitChar (n / 10 / 10), Nat.digitChar (n / 10 % 10), Nat.digitChar (n % 10)] := by
  unfold formatUint
  rw [fmtBits_pos _ _ _ (by omega), if_neg (by omega), fmtBits_pos _ _ _ (by omega),
    if_neg (by omega), fmtBits_pos _ _ _ (by omega), if_pos (by omega)]

theorem formatUint_four (n : Nat) (h1 : 1000 ≤ n) (h2 : n < 10000) :
    formatUint n
      = [Nat.digitChar (n / 10 / 10 / 10), Nat.digitChar (n / 10 / 10 % 10),
          Nat.digitChar (n / 10 % 10), Nat.digitChar (n % 10)] := by
  unfold formatUint
  rw [fmtBits_pos _ _ _ (by omega), if_neg (by omega), fmtBits_pos _ _ _ (by omega),
    if_neg (by omega), fmtBits_pos _ _ _ (by omega), if_neg (by omega),
    fmtBits_pos _ _ _ (by omega), if_pos (by omega)]

/-- Below 10000 the decimal text is ASCII and has at most four characters. -/
theorem formatUint_small (n : Nat) (h : n < 10000) :
    isASCII (formatUint n) ∧ 1 ≤ (formatUint n).length ∧
      ((formatUint n).length ≤ 1 ↔ n < 10) ∧ ((formatUint n).length ≤ 2 ↔ n < 100) ∧
      ((formatUint n).length ≤ 3 ↔ n < 1000) ∧ (formatUint n).length ≤ 4 := by
  have dA : ∀ d, d < 10 → (Nat.digitChar d).toNat < 128 := digitChar_ascii
  by_cases c1 : n < 10
  · rw [formatUint_one n c1]
    refine ⟨isASCII_cons _ _ (dA _ c1) isASCII_nil, ?_⟩
    simp; omega
  by_cases c2 : n < 100
  · rw [formatUint_two n (by omega) c2]
    refine ⟨isASCII_cons _ _ (dA _ (by omega)) (isASCII_cons _ _ (dA _ (by omega)) isASCII_nil),
      ?_⟩
    simp; omega
  by_cases c3 : n < 1000
  · rw [formatUint_three n (by omega) c3]
    refine ⟨isASCII_cons _ _ (dA _ (by omega)) (isASCII_cons _ _ (dA _ (by omega))
      (isASCII_cons _ _ (dA _ (by omega)) isASCII_nil)), ?_⟩
    simp; omega
  · rw [formatUint_four n (by omega) h]
    refine ⟨isASCII_cons _ _ (dA _ (by omega)) (isASCII_cons _ _ (dA _ (by omega))
      (isASCII_cons _ _ (dA _ (by omega)) (isASCII_cons _ _ (dA _ (by omega)) isASCII_nil))), ?_⟩
    simp; omega

/-- A field of `width` 2 or 4 holding a number that fits is ASCII and exactly
`width` characters long. -/
theorem appendInt_fits (x : Int) (width : Nat) (h0 : 0 ≤ x)
    (hw : (width = 2 ∧ x < 100) ∨ (width = 4 ∧ x < 10000)) :
    isASCII (appendInt x width) ∧ (appendInt x width).length = width := by
  have hn : x.natAbs < 10000 := by omega
  have hs := formatUint_small x.natAbs hn
  have hneg : ¬ x < 0 := by omega
  unfold appendInt
  rw [if_neg hneg]
  refine ⟨isASCII_append _ _ isASCII_nil
    (isASCII_append _ _ (isASCII_replicate _ _ (by decide)) hs.1), ?_⟩
  simp only [List.nil_append, List.length_append, List.length_replicate]
  rcases hw with ⟨w, hx⟩ | ⟨w, hx⟩
  · have : (formatUint x.natAbs).length ≤ 2 := hs.2.2.2.1.mpr (by omega)
    omega
  · have := hs.2.2.2.2.2
    omega

theorem appendInt_two (n : Nat) (h : n < 100) : appendInt (n : Int) 2 = twoDigits n := by
  have hneg : ¬ ((n : Int) < 0) := by omega
  unfold appendInt twoDigits
  rw [if_neg hneg, Int.natAbs_ofNat]
  by_cases c : n < 10
  · rw [formatUint_one n c]
    have e1 : n / 10 = 0 := by omega
    have e2 : n % 10 = n := by omega
    rw [e1, e2]
    rfl
  · rw [formatUint_two n (by omega) h]
    rfl

theorem appendInt_four (n : Nat) (h : n < 10000) : appendInt (n : Int) 4 = fourDigits n := by
  have hneg : ¬ ((n : Int) < 0) := by omega
  unfold appendInt fourDigits
  rw [if_neg hneg, Int.natAbs_ofNat]
  by_cases c1 : n < 10
  · rw [formatUint_one n c1]
    have e1 : n / 1000 = 0 := by omega
    have e2 : n / 100 % 10 = 0 := by omega
    have e3 : n / 10 % 10 = 0 := by omega
    have e4 : n % 10 = n := by omega
    rw [e1, e2, e3, e4]
    rfl
  by_cases c2 : n < 100
  · rw [formatUint_two n (by omega) c2]
    have e1 : n / 1000 = 0 := by omega
    have e2 : n / 100 % 10 = 0 := by omega
    have e3 : n / 10 % 10 = n / 10 := by omega
    rw [e1, e2, e3]
    rfl
  by_cases c3 : n < 1000
  · rw [formatUint_three n (by omega) c3]
    have e1 : n / 1000 = 0 := by omega
    have e2 : n / 100 % 10 = n / 10 / 10 := by omega
    rw [e1, e2]
    rfl
  · rw [formatUint_four n (by omega) h]
    have e1 : n / 1000 = n / 10 / 10 / 10 := by omega
    have e2 : n / 100 % 10 = n / 10 / 10 % 10 := by omega
    rw [e1, e2]
    rfl

/-- The timestamp is `YYYY-MM-DDTHH:MM:SS`, every field in decimal digits. -/
theorem formatDateTime_digits (dt : Time) (h : dt.wellFormed) :
    formatDateTime dt = fourDigits dt.year.toNat ++ '-' :: twoDigits dt.month ++
      '-' :: twoDigits dt.day ++ 'T' :: twoDigits dt.hour ++ ':' :: twoDigits dt.minute ++
      ':' :: twoDigits dt.second := by
  obtain ⟨y0, y1, m0, m1, d0, d1, hh, mi, se⟩ := h
  obtain ⟨n, hn⟩ : ∃ n : Nat, dt.year = (n : Int) := ⟨dt.year.toNat, by omega⟩
  unfold formatDateTime
  rw [hn, Int.toNat_ofNat, appendInt_four n (by omega), appendInt_two _ (by omega),
    appendInt_two _ (by omega), appendInt_two _ (by omega), appendInt_two _ (by omega),
    appendInt_two _ (by omega)]

theorem formatDateTime_layout (dt : Time) (h : dt.wellFormed) :
    isASCII (formatDateTime dt) ∧ (formatDateTime dt).length = 19 := by
  obtain ⟨y0, y1, m0, m1, d0, d1, hh, mi, se⟩ := h
  have hy := appendInt_fits dt.year 4 y0 (Or.inr ⟨rfl, by omega⟩)
  have hm := appendInt_fits dt.month 2 (by omega) (Or.inl ⟨rfl, by omega⟩)
  have hd := appendInt_fits dt.day 2 (by omega) (Or.inl ⟨rfl, by omega⟩)
  have hH := appendInt_fits dt.hour 2 (by omega) (Or.inl ⟨rfl, by omega⟩)
  have hM := appendInt_fits dt.minute 2 (by omega) (Or.inl ⟨rfl, by omega⟩)
  have hS := appendInt_fits dt.second 2 (by omega) (Or.inl ⟨rfl, by omega⟩)
  unfold formatDateTime
  constructor
  · exact isASCII_append _ _ (isASCII_append _ _ (isASCII_append _ _ (isASCII_append _ _
      (isASCII_append _ _ hy.1 (isASCII_cons _ _ (by decide) hm.1))
      (isASCII_cons _ _ (by decide) hd.1)) (isASCII_cons _ _ (by decide) hH.1))
      (isASCII_cons _ _ (by decide) hM.1)) (isASCII_cons _ _ (by decide) hS.1)
  · simp only [List.length_append, List.length_cons, hy.2, hm.2, hd.2, hH.2, hM.2, hS.2]


theorem byteLen_append (s t : GoString) : byteLen (s ++ t) = byteLen s + byteLen t := by
  induction s with
  | nil => simp [byteLen]
  | cons c cs ih => simp [byteLen, ih]; omega

theorem dropBytes_ascii (p s : GoString) (hp : isASCII p) :
    dropBytes p.length (p ++ s) = some s := by
  induction p with
  | nil => simp [dropBytes]
  | cons c cs ih =>
    have hc := utf8Size_of_lt c (hp c (List.mem_cons_self _ _))
    have := ih (fun x hx => hp x (List.mem_cons_of_mem _ hx))
    simp [dropBytes, hc, this]

theorem takeBytes_ascii (p s : GoString) (hp : isASCII p) :
    takeBytes p.length (p ++ s) = some p := by
  induction p with
  | nil => simp [takeBytes]
  | cons c cs ih =>
    have hc := utf8Size_of_lt c (hp c (List.mem_cons_self _ _))
    have := ih (fun x hx => hp x (List.mem_cons_of_mem _ hx))
    simp [takeBytes, hc, this]

/-- A slice that starts after the ASCII text `p` and covers the ASCII text `q`. -/
theorem sliceBytes_ascii (p q s : GoString) (hp : isASCII p) (hq : isASCII q) :
    sliceBytes (p ++ (q ++ s)) p.length (p.length + q.length) = some q := by
  unfold sliceBytes
  rw [if_neg (by omega), dropBytes_ascii p _ hp]
  have e : p.length + q.length - p.length = q.length := by omega
  rw [e]
  exact takeBytes_ascii q s hq

theorem edgeName_cases (a : Arrival) :
    edgeName a = "rising".toList ∨ edgeName a = "falling".toList := by
  unfold edgeName; split
  · right; rfl
  · left; rfl

theorem eventField_layout (a : Arrival) (h0 : 0 ≤ a.evt.Offset) (h1 : a.evt.Offset ≤ 999) :
    isASCII (eventField a) ∧ (eventField a).length = 10 ∧
    eventField a = edgeName a ++ List.replicate (7 - (edgeName a).length) ' ' ++
      (List.replicate (3 - (formatUint a.evt.Offset.natAbs).length) ' ' ++
        formatUint a.evt.Offset.natAbs) := by
  have hs := formatUint_small a.evt.Offset.natAbs (by omega)
  have hl : (formatUint a.evt.Offset.natAbs).length ≤ 3 := hs.2.2.2.2.1.mpr (by omega)
  have hd : fmtD a.evt.Offset = formatUint a.evt.Offset.natAbs := by
    unfold fmtD; rw [if_neg (by omega)]
  have he : isASCII (edgeName a) ∧ ((edgeName a).length = 6 ∨ (edgeName a).length = 7) := by
    rcases edgeName_cases a with e | e <;> rw [e]
    · exact ⟨by unfold isASCII; decide, Or.inl rfl⟩
    · exact ⟨by unfold isASCII; decide, Or.inr rfl⟩
  unfold eventField padRight padLeft
  rw [hd]
  refine ⟨isASCII_append _ _ (isASCII_append _ _ he.1 (isASCII_replicate _ _ (by decide)))
    (isASCII_append _ _ (isASCII_replicate _ _ (by decide)) hs.1), ?_, rfl⟩
  simp only [List.length_append, List.length_replicate]
  omega

theorem eventLine_split (a : Arrival) :
    eventLine a
      = formatDateTime a.dt ++ ([' '] ++ (eventField a ++ ([' '] ++ eventDescription a))) := by
  simp [eventLine, eventText, eventField, eventDescription, edgeName, List.append_assoc]


/-- C10.  For every admitted edge with line offset in 0..999 and a clock
reading with a four-digit year, `eventHandler` writes one line: the
19-character timestamp `YYYY-MM-DDTHH:MM:SS` at columns 0-18, a blank at column
19, the direction (`falling` when the event type is the falling edge, `rising`
otherwise) left-justified in 7 columns followed by the offset right-justified
in 3 columns at columns 20-29, a blank at column 30 and the description
`event: #<seq>(<lineSeq>) ...` from column 31, then a newline; the slices
`text[:19]`, `text[20:30]` and `text[31:]` of `makeTableDatafiles` return the
timestamp, the direction-and-line field and the description. -/
theorem logged_line_layout (cfg : Config) (a : Arrival) (g : Gate)
    (hg : g.inDeBounce = false) (h0 : 0 ≤ a.evt.Offset) (h1 : a.evt.Offset ≤ 999)
    (ht : a.dt.wellFormed) :
    (eventHandler cfg a g).writes = g.writes ++ [eventLine a ++ ['\n']] ∧
    eventLine a
      = formatDateTime a.dt ++ ([' '] ++ (eventField a ++ ([' '] ++ eventDescription a))) ∧
    (formatDateTime a.dt).length = 19 ∧
    (eventField a).length = 10 ∧
    (edgeName a = "rising".toList ∨ edgeName a = "falling".toList) ∧
    eventField a = edgeName a ++ List.replicate (7 - (edgeName a).length) ' ' ++
      (List.replicate (3 - (formatUint a.evt.Offset.natAbs).length) ' ' ++
        formatUint a.evt.Offset.natAbs) ∧
    eventDescription a = "event: #".toList ++ fmtD a.evt.Seqno ++ "(".toList ++
      fmtD a.evt.LineSeqno ++ ") ".toList ++ a.rfc3339Nano ++ " (".toList ++ a.stampText ++
      ")".toList ∧
    sliceBytes (eventLine a) 0 19 = some (formatDateTime a.dt) ∧
    sliceBytes (eventLine a) 19 20 = some [' '] ∧
    sliceBytes (eventLine a) 20 30 = some (eventField a) ∧
    sliceBytes (eventLine a) 30 31 = some [' '] ∧
    dropBytes 31 (eventLine a) = some (eventDescription a) ∧
    tableRow (eventLine a) = some ("    <tr><td>".toList ++ formatDateTime a.dt ++
      "</td><td>".toList ++ eventField a ++ "</td><td>".toList ++ eventDescription a ++
      "</td>".toList) ∧
    (a.evt.Type_ = LineEventFallingEdge → edgeName a = "falling".toList) ∧
    (a.evt.Type_ ≠ LineEventFallingEdge → edgeName a = "rising".toList) ∧
    formatDateTime a.dt = fourDigits a.dt.year.toNat ++ '-' :: twoDigits a.dt.month ++
      '-' :: twoDigits a.dt.day ++ 'T' :: twoDigits a.dt.hour ++ ':' :: twoDigits a.dt.minute ++
      ':' :: twoDigits a.dt.second := by
  have hT := formatDateTime_layout a.dt ht
  have hF := eventField_layout a h0 h1
  have hb : isASCII [' '] := by unfold isASCII; decide
  have hL := eventLine_split a
  have s1 : sliceBytes (eventLine a) 0 19 = some (formatDateTime a.dt) := by
    have := sliceBytes_ascii [] (formatDateTime a.dt)
      ([' '] ++ (eventField a ++ ([' '] ++ eventDescription a))) isASCII_nil hT.1
    rw [hT.2] at this
    rw [hL]; exact this
  have s2 : sliceBytes (eventLine a) 19 20 = some [' '] := by
    have := sliceBytes_ascii (formatDateTime a.dt) [' ']
      (eventField a ++ ([' '] ++ eventDescription a)) hT.1 hb
    rw [hT.2] at this
    rw [hL]; exact this
  have s3 : sliceBytes (eventLine a) 20 30 = some (eventField a) := by
    have := sliceBytes_ascii (formatDateTime a.dt ++ [' ']) (eventField a)
      ([' '] ++ eventDescription a) (isASCII_append _ _ hT.1 hb) hF.1
    rw [List.length_append, hT.2, hF.2.1, List.append_assoc] at this
    rw [hL]; exact this
  have s4 : sliceBytes (eventLine a) 30 31 = some [' '] := by
    have := sliceBytes_ascii (formatDateTime a.dt ++ [' '] ++ eventField a) [' ']
      (eventDescription a) (isASCII_append _ _ (isASCII_append _ _ hT.1 hb) hF.1) hb
    rw [List.length_append, List.length_append, hT.2, hF.2.1, List.append_assoc,
      List.append_assoc] at this
    rw [hL]; exact this
  have hp : isASCII (formatDateTime a.dt ++ [' '] ++ eventField a ++ [' ']) :=
    isASCII_append _ _ (isASCII_append _ _ (isASCII_append _ _ hT.1 hb) hF.1) hb
  have hpl : (formatDateTime a.dt ++ [' '] ++ eventField a ++ [' ']).length = 31 := by
    simp only [List.length_append, hT.2, hF.2.1, List.length_singleton]
  have hL2 : eventLine a
      = (formatDateTime a.dt ++ [' '] ++ eventField a ++ [' ']) ++ eventDescription a := by
    rw [hL]; simp only [List.append_assoc]
  have s5 : dropBytes 31 (eventLine a) = some (eventDescription a) := by
    have := dropBytes_ascii _ (eventDescription a) hp
    rw [hpl] at this
    rw [hL2]; exact this
  have hlen : ¬ byteLen (eventLine a) < 31 := by
    rw [hL2, byteLen_append, byteLen_ascii _ hp, hpl]; omega
  refine ⟨?_, hL, hT.2, hF.2.1, edgeName_cases a, hF.2.2, rfl, s1, s2, s3, s4, s5, ?_,
    fun hf => ?_, fun hr => ?_, formatDateTime_digits a.dt ht⟩
  · rw [(eventHandler_admitted cfg a g hg).1]; rfl
  · unfold tableRow
    rw [s1, s3]
    simp only [Option.bind_eq_bind, Option.some_bind, hlen, if_false, s5, Option.pure_def]
  · unfold edgeName; rw [if_pos hf]
  · unfold edgeName; rw [if_neg hr]

/-- Witness of C10: a rising and a falling edge on line 17. -/
theorem logged_line_layout_witness :
    Gate.init.inDeBounce = false ∧ 0 ≤ (edgeAt 0 1 1).evt.Offset ∧
    (edgeAt 0 1 1).evt.Offset ≤ 999 ∧ (edgeAt 0 1 1).dt.wellFormed ∧
    eventLine (edgeAt 0 1 1)
      = "2025-03-09T07:05:01 rising  17 event: #1(1) 2025-03-09T07:05:01.25-05:00 (1h2m3.5s)".toList ∧
    eventLine (edgeAt 0 2 2)
      = "2025-03-09T07:05:01 falling 17 event: #2(2) 2025-03-09T07:05:01.25-05:00 (1h2m3.5s)".toList ∧
    (edgeAt 0 1 1).evt.Timestamp = ((1 * 60 + 2) * 60 + 3) * 1000000000 + 500000000 ∧
    sliceBytes (eventLine (edgeAt 0 1 1)) 20 30 = some (eventField (edgeAt 0 1 1)) ∧
    edgeName (edgeAt 0 2 2) = "falling".toList :=
  ⟨rfl, by decide, by decide, by decide, by decide, by decide, by decide,
   (logged_line_layout sourceConfig (edgeAt 0 1 1) Gate.init rfl (by decide) (by decide)
      (by decide)).2.2.2.2.2.2.2.2.2.1,
   (logged_line_layout sourceConfig (edgeAt 0 2 2) Gate.init rfl (by decide) (by decide)
      (by decide)).2.2.2.2.2.2.2.2.2.2.2.2.2.1 (by decide)⟩
end Vibration
